import Mathlib

/-! # gorm-adapter: the rule record, the predicate builders and the rule store

A shallow embedding of `adapter.go`.  Go strings are `String`, Go slices are
`List`, Go `int` is `Int` (the only arithmetic on it, `fieldIndex+len(fieldValues)`,
is evaluated behind `fieldIndex <= i` with `i <= 7`, so it cannot wrap), a Go
`error` value and a run-time panic are the two constructors of `Failure`.

The relational database behind gorm is modelled as a table: the list of its rows
in insertion order.  The statements the adapter issues are modelled by
`dbFind`, `dbDelete` and `dbCreate`, which read the WHERE text and its positional
arguments the way SQL does for conjunctions of `column = ?` comparisons
(exact string equality; column size limits and collations are not modelled).
An insert is refused when the 9-tuple `(ptype, v0, ..., v7)` is already in the
table (the unique index of `createTable`); a record inserted with the zero id is
given an id above every id in the table.  A select without an ORDER BY returns
the rows in table order.  A transaction works on its own copy of the table:
commit makes the copy the table, rollback keeps the table as it was at `Begin`.

Failures that do not follow from the table (a lost connection, a timeout) are
answers of the database client, given as functions from the number of a
statement to its error: `Faults` for the statements of a filtered update and of
the loads, `CreateAnswers` for the inserts of a full save.  `RangeRules` of the
authorization engine and the table effects of the write operations that are not
followed statement by statement (`Client`) are taken from outside.

The file has two parts: the definitions, each next to the lines of `adapter.go`
it is taken from, and the theorems about them.
-/

namespace GormAdapter

/-! ## Data model -/

/-- The row type `CasbinRule` (adapter.go 34-45). -/
structure CasbinRule where
  ID : Nat
  Ptype : String
  V0 : String
  V1 : String
  V2 : String
  V3 : String
  V4 : String
  V5 : String
  V6 : String
  V7 : String
  deriving DecidableEq, Repr

/-- What a call can end in besides a value: a returned Go `error`, or a run-time panic. -/
inductive Failure where
  | error (msg : String)
  | panic (msg : String)
  deriving DecidableEq, Repr

/-- The zero value `&CasbinRule{}` returned by `getTableInstance` (adapter.go 118-120). -/
def getTableInstance : CasbinRule :=
  { ID := 0, Ptype := "", V0 := "", V1 := "", V2 := "", V3 := "", V4 := "",
    V5 := "", V6 := "", V7 := "" }

/-- The eight value columns of a record, `V0` first. -/
def CasbinRule.fields (r : CasbinRule) : List String :=
  [r.V0, r.V1, r.V2, r.V3, r.V4, r.V5, r.V6, r.V7]

/-- Go slice indexing `xs[i]` with an `int` index: panics outside `0 <= i < len(xs)`. -/
def goIndex (xs : List String) (i : Int) : Except Failure String :=
  if i < 0 then .error (.panic "index out of range")
  else
    match xs[i.toNat]? with
    | some v => .ok v
    | none => .error (.panic "index out of range")

/-! ## The database collaborator -/

/-- The table: its rows, in insertion order. -/
abbrev Table := List CasbinRule

/-- The column names a WHERE text may mention. -/
def columnNames : List String :=
  ["ptype", "v0", "v1", "v2", "v3", "v4", "v5", "v6", "v7"]

/-- The value a row holds in a named column. -/
def CasbinRule.column (r : CasbinRule) (name : String) : Option String :=
  if name = "ptype" then some r.Ptype
  else if name = "v0" then some r.V0
  else if name = "v1" then some r.V1
  else if name = "v2" then some r.V2
  else if name = "v3" then some r.V3
  else if name = "v4" then some r.V4
  else if name = "v5" then some r.V5
  else if name = "v6" then some r.V6
  else if name = "v7" then some r.V7
  else none

/-- Reads one comparison `<column> = ?` at the head of a WHERE text: the column
and the text after the comparison. -/
def sqlComparison (cs : List Char) : Option (String × List Char) :=
  columnNames.findSome? fun c =>
    if (c ++ " = ?").data.isPrefixOf cs then some (c, cs.drop (c ++ " = ?").data.length)
    else none

/-- Reads a WHERE text that is a conjunction `c1 = ? and c2 = ? and ...` and binds
the positional arguments to the placeholders, left to right.  `none` when the
text is not of that form or the number of arguments differs from the number of
placeholders (the statement is then rejected). -/
def sqlParseWhere : List Char → List String → Option (List (String × String))
  | _, [] => none
  | cs, a :: as =>
    match sqlComparison cs with
    | none => none
    | some (col, rest) =>
      if rest = [] then
        (if as = [] then some [(col, a)] else none)
      else if " and ".data.isPrefixOf rest then
        (sqlParseWhere (rest.drop 5) as).map (fun conds => (col, a) :: conds)
      else none

/-- A row satisfies a conjunction of bound comparisons. -/
def sqlHolds (conds : List (String × String)) (row : CasbinRule) : Bool :=
  conds.all fun ca => row.column ca.1 == some ca.2

/-- The statement `tx.Where(str, args...).Find(&dest)`: the rows that satisfy the
condition, in table order.  gorm resets the destination slice before it scans
the result rows into it, so the value returned here is the whole new content of
`dest`. -/
def dbFind (t : Table) (str : String) (args : List String) :
    Except Failure (List CasbinRule) :=
  match sqlParseWhere str.data args with
  | none => .error (.error "malformed statement")
  | some conds => .ok (t.filter (sqlHolds conds))

/-- The statement `db.Delete(table, str, args...)` / `tx.Where(str, args...).Delete(...)`:
removes the rows that satisfy the condition and keeps the others in place. -/
def dbDelete (t : Table) (str : String) (args : List String) : Except Failure Table :=
  match sqlParseWhere str.data args with
  | none => .error (.error "malformed statement")
  | some conds => .ok (t.filter (fun r => !sqlHolds conds r))

/-- Two records hold the same 9-tuple `(ptype, v0, ..., v7)`, the key of the
unique index made by `createTable` (adapter.go 149). -/
def sameTuple (a b : CasbinRule) : Bool :=
  a.Ptype == b.Ptype && a.V0 == b.V0 && a.V1 == b.V1 && a.V2 == b.V2 && a.V3 == b.V3 &&
    a.V4 == b.V4 && a.V5 == b.V5 && a.V6 == b.V6 && a.V7 == b.V7

/-- The id the auto-increment primary key hands to the next insert: larger than
every id in the table. -/
def nextID (t : Table) : Nat :=
  (t.map (fun r => r.ID)).foldr max 0 + 1

/-- The statement `db.Create(&line)`: fails on a duplicate of the unique index
or of the primary key; a record with the zero id gets the next id. -/
def dbCreate (t : Table) (line : CasbinRule) : Except Failure Table :=
  if t.any (sameTuple line) then .error (.error "UNIQUE constraint failed")
  else if line.ID = 0 then .ok (t ++ [{ line with ID := nextID t }])
  else if t.any (fun r => r.ID == line.ID) then .error (.error "PRIMARY KEY constraint failed")
  else .ok (t ++ [line])

/-! ## Equality-predicate builders -/

/-- The query text and arguments `rawDelete` builds (adapter.go 413-447); the pair
is the state `(queryStr, queryArgs)`. -/
def rawDeleteQuery (line : CasbinRule) : String × List String :=
  let q : String × List String := ("ptype = ?", [line.Ptype])
  let q := if line.V0 != "" then (q.1 ++ " and v0 = ?", q.2 ++ [line.V0]) else q
  let q := if line.V1 != "" then (q.1 ++ " and v1 = ?", q.2 ++ [line.V1]) else q
  let q := if line.V2 != "" then (q.1 ++ " and v2 = ?", q.2 ++ [line.V2]) else q
  let q := if line.V3 != "" then (q.1 ++ " and v3 = ?", q.2 ++ [line.V3]) else q
  let q := if line.V4 != "" then (q.1 ++ " and v4 = ?", q.2 ++ [line.V4]) else q
  let q := if line.V5 != "" then (q.1 ++ " and v5 = ?", q.2 ++ [line.V5]) else q
  let q := if line.V6 != "" then (q.1 ++ " and v6 = ?", q.2 ++ [line.V6]) else q
  let q := if line.V7 != "" then (q.1 ++ " and v7 = ?", q.2 ++ [line.V7]) else q
  q

/-- The function `rawDelete` (adapter.go 412-451): the new table and the returned error. -/
def rawDelete (db : Table) (line : CasbinRule) : Table × Option Failure :=
  let q := rawDeleteQuery line
  match dbDelete db q.1 q.2 with
  | .error e => (db, some e)
  | .ok db' => (db', none)

/-- The function `appendWhere` (adapter.go 453-490). -/
def appendWhere (line : CasbinRule) : String × List String :=
  let q : String × List String := ("ptype = ?", [line.Ptype])
  let q := if line.V0 != "" then (q.1 ++ " and v0 = ?", q.2 ++ [line.V0]) else q
  let q := if line.V1 != "" then (q.1 ++ " and v1 = ?", q.2 ++ [line.V1]) else q
  let q := if line.V2 != "" then (q.1 ++ " and v2 = ?", q.2 ++ [line.V2]) else q
  let q := if line.V3 != "" then (q.1 ++ " and v3 = ?", q.2 ++ [line.V3]) else q
  let q := if line.V4 != "" then (q.1 ++ " and v4 = ?", q.2 ++ [line.V4]) else q
  let q := if line.V5 != "" then (q.1 ++ " and v5 = ?", q.2 ++ [line.V5]) else q
  let q := if line.V6 != "" then (q.1 ++ " and v6 = ?", q.2 ++ [line.V6]) else q
  let q := if line.V7 != "" then (q.1 ++ " and v7 = ?", q.2 ++ [line.V7]) else q
  q

/-- The method `CasbinRule.queryString` (adapter.go 581-619). -/
def CasbinRule.queryString (c : CasbinRule) : String × List String :=
  let q : String × List String := ("ptype = ?", [c.Ptype])
  let q := if c.V0 != "" then (q.1 ++ " and v0 = ?", q.2 ++ [c.V0]) else q
  let q := if c.V1 != "" then (q.1 ++ " and v1 = ?", q.2 ++ [c.V1]) else q
  let q := if c.V2 != "" then (q.1 ++ " and v2 = ?", q.2 ++ [c.V2]) else q
  let q := if c.V3 != "" then (q.1 ++ " and v3 = ?", q.2 ++ [c.V3]) else q
  let q := if c.V4 != "" then (q.1 ++ " and v4 = ?", q.2 ++ [c.V4]) else q
  let q := if c.V5 != "" then (q.1 ++ " and v5 = ?", q.2 ++ [c.V5]) else q
  let q := if c.V6 != "" then (q.1 ++ " and v6 = ?", q.2 ++ [c.V6]) else q
  let q := if c.V7 != "" then (q.1 ++ " and v7 = ?", q.2 ++ [c.V7]) else q
  q

/-- The value columns a record constrains: each column name paired with the
record's value there, for the non-empty values only, `v0` first. -/
def CasbinRule.constrained (r : CasbinRule) : List (String × String) :=
  (columnNames.tail.zip r.fields).filter (fun cv => cv.2 != "")

/-- The equality predicate in the words of the specification: the clause
`ptype = ?` followed by one clause per non-empty field, and the matching
arguments in column order. -/
def equalityPredicateSpec (r : CasbinRule) : String × List String :=
  ("ptype = ?" ++ String.join (r.constrained.map fun cv => " and " ++ cv.1 ++ " = ?"),
    r.Ptype :: r.constrained.map (fun cv => cv.2))

/-- The number of `?` placeholders of a query text, one per clause. -/
def placeholders (queryStr : String) : Nat :=
  queryStr.data.count '?'

/-- One step of the builders: append the clause and the argument of a column
when its value is non-empty.  Used to reason about the three builders at once. -/
def addClause (q : String × List String) (cv : String × String) : String × List String :=
  if cv.2 != "" then (q.1 ++ (" and " ++ cv.1 ++ " = ?"), q.2 ++ [cv.2]) else q

/-- A row satisfies the equality predicate of `line`: same `ptype`, and the same
value in every column where `line` is non-empty. -/
def CasbinRule.matchesLine (line row : CasbinRule) : Bool :=
  row.Ptype == line.Ptype &&
    (line.V0 == "" || row.V0 == line.V0) && (line.V1 == "" || row.V1 == line.V1) &&
    (line.V2 == "" || row.V2 == line.V2) && (line.V3 == "" || row.V3 == line.V3) &&
    (line.V4 == "" || row.V4 == line.V4) && (line.V5 == "" || row.V5 == line.V5) &&
    (line.V6 == "" || row.V6 == line.V6) && (line.V7 == "" || row.V7 == line.V7)

/-! ## Records from tuples and back -/

/-- The method `savePolicyLine` (adapter.go 255-285). -/
def savePolicyLine (ptype : String) (rule : List String) : CasbinRule :=
  let line := getTableInstance
  let line := { line with Ptype := ptype }
  let line := if h : rule.length > 0 then { line with V0 := rule[0] } else line
  let line := if h : rule.length > 1 then { line with V1 := rule[1] } else line
  let line := if h : rule.length > 2 then { line with V2 := rule[2] } else line
  let line := if h : rule.length > 3 then { line with V3 := rule[3] } else line
  let line := if h : rule.length > 4 then { line with V4 := rule[4] } else line
  let line := if h : rule.length > 5 then { line with V5 := rule[5] } else line
  let line := if h : rule.length > 6 then { line with V6 := rule[6] } else line
  let line := if h : rule.length > 7 then { line with V7 := rule[7] } else line
  line

/-- The record of a whole tuple, `savePolicyLine(rule[0], rule[1:])`, as `AddRule`
and `RemoveRule` build it (adapter.go 324, 331); `rule[0]` panics on the empty tuple. -/
def fromTuple (rule : List String) : Except Failure CasbinRule :=
  match rule with
  | [] => .error (.panic "index out of range")
  | ptype :: rest => .ok (savePolicyLine ptype rest)

/-- The loop `for p[index] == "" { index-- }` of `loadPolicyLine` (adapter.go 172-174),
started at `index`: the index it stops at.  When `p[0]` is empty too the index
becomes -1 and the next test `p[-1]` panics. -/
def loadPolicyLine.scan (p : List String) : Nat → Except Failure Nat
  | 0 =>
    match p[0]? with
    | none => .error (.panic "index out of range")
    | some s => if s == "" then .error (.panic "index out of range [-1]") else .ok 0
  | index + 1 =>
    match p[index + 1]? with
    | none => .error (.panic "index out of range")
    | some s => if s == "" then loadPolicyLine.scan p index else .ok (index + 1)

/-- The function `loadPolicyLine` (adapter.go 165-179): the tuple it passes to
`model.AddRule`. -/
def loadPolicyLine (line : CasbinRule) : Except Failure (List String) :=
  let p := [line.Ptype, line.V0, line.V1, line.V2, line.V3, line.V4, line.V5, line.V6, line.V7]
  match loadPolicyLine.scan p (p.length - 1) with
  | .error e => .error e
  | .ok index =>
    let index := index + 1
    .ok (p.take index)

/-- The tuple of a record as the specification words it: the list with its
trailing empty strings dropped. -/
def dropTrailingEmpty (p : List String) : List String :=
  (p.reverse.dropWhile (fun s => s == "")).reverse

/-- The method `CasbinRule.toStringPolicy` (adapter.go 621-651). -/
def CasbinRule.toStringPolicy (c : CasbinRule) : List String :=
  let policy : List String := []
  let policy := if c.Ptype != "" then policy ++ [c.Ptype] else policy
  let policy := if c.V0 != "" then policy ++ [c.V0] else policy
  let policy := if c.V1 != "" then policy ++ [c.V1] else policy
  let policy := if c.V2 != "" then policy ++ [c.V2] else policy
  let policy := if c.V3 != "" then policy ++ [c.V3] else policy
  let policy := if c.V4 != "" then policy ++ [c.V4] else policy
  let policy := if c.V5 != "" then policy ++ [c.V5] else policy
  let policy := if c.V6 != "" then policy ++ [c.V6] else policy
  let policy := if c.V7 != "" then policy ++ [c.V7] else policy
  policy

/-! ## Offset filters -/

/-- The function `checkQueryField` (adapter.go 403-410). -/
def checkQueryField : List String → Except Failure Unit
  | [] => .error (.error "the query field cannot all be empty string (\"\"), please check")
  | fieldValue :: rest => if fieldValue != "" then .ok () else checkQueryField rest

/-- The record `RemoveFilteredPolicy` fills from its offset filter
(adapter.go 361-363, 374-397). -/
def RemoveFilteredPolicy.fill (ptype : String) (fieldIndex : Int) (fieldValues : List String) :
    Except Failure CasbinRule := do
  let line := getTableInstance
  let line := { line with Ptype := ptype }
  let line ← (if fieldIndex ≤ 0 && 0 < fieldIndex + fieldValues.length then
      (goIndex fieldValues (0 - fieldIndex)).map (fun v => { line with V0 := v })
    else pure line)
  let line ← (if fieldIndex ≤ 1 && 1 < fieldIndex + fieldValues.length then
      (goIndex fieldValues (1 - fieldIndex)).map (fun v => { line with V1 := v })
    else pure line)
  let line ← (if fieldIndex ≤ 2 && 2 < fieldIndex + fieldValues.length then
      (goIndex fieldValues (2 - fieldIndex)).map (fun v => { line with V2 := v })
    else pure line)
  let line ← (if fieldIndex ≤ 3 && 3 < fieldIndex + fieldValues.length then
      (goIndex fieldValues (3 - fieldIndex)).map (fun v => { line with V3 := v })
    else pure line)
  let line ← (if fieldIndex ≤ 4 && 4 < fieldIndex + fieldValues.length then
      (goIndex fieldValues (4 - fieldIndex)).map (fun v => { line with V4 := v })
    else pure line)
  let line ← (if fieldIndex ≤ 5 && 5 < fieldIndex + fieldValues.length then
      (goIndex fieldValues (5 - fieldIndex)).map (fun v => { line with V5 := v })
    else pure line)
  let line ← (if fieldIndex ≤ 6 && 6 < fieldIndex + fieldValues.length then
      (goIndex fieldValues (6 - fieldIndex)).map (fun v => { line with V6 := v })
    else pure line)
  let line ← (if fieldIndex ≤ 7 && 7 < fieldIndex + fieldValues.length then
      (goIndex fieldValues (7 - fieldIndex)).map (fun v => { line with V7 := v })
    else pure line)
  pure line

/-- Everything `RemoveFilteredPolicy` does before it calls `rawDelete`
(adapter.go 361-397): the record it will delete by, or the failure it ends in
without having issued a statement. -/
def RemoveFilteredPolicy.deleteLine (ptype : String) (fieldIndex : Int)
    (fieldValues : List String) : Except Failure CasbinRule :=
  let line := getTableInstance
  let line := { line with Ptype := ptype }
  if fieldIndex = -1 then .ok line
  else
    match checkQueryField fieldValues with
    | .error err => .error err
    | .ok () => RemoveFilteredPolicy.fill ptype fieldIndex fieldValues

/-- The method `RemoveFilteredPolicy` (adapter.go 360-400): the table afterwards and
the returned error. -/
def RemoveFilteredPolicy (db : Table) (_sec : String) (ptype : String) (fieldIndex : Int)
    (fieldValues : List String) : Table × Option Failure :=
  match RemoveFilteredPolicy.deleteLine ptype fieldIndex fieldValues with
  | .error err => (db, some err)
  | .ok line => rawDelete db line

/-- The record `UpdateFilteredPolicies` fills from its offset filter
(adapter.go 520-546). -/
def UpdateFilteredPolicies.fill (ptype : String) (fieldIndex : Int) (fieldValues : List String) :
    Except Failure CasbinRule := do
  let line := getTableInstance
  let line := { line with Ptype := ptype }
  let line ← (if fieldIndex ≤ 0 && 0 < fieldIndex + fieldValues.length then
      (goIndex fieldValues (0 - fieldIndex)).map (fun v => { line with V0 := v })
    else pure line)
  let line ← (if fieldIndex ≤ 1 && 1 < fieldIndex + fieldValues.length then
      (goIndex fieldValues (1 - fieldIndex)).map (fun v => { line with V1 := v })
    else pure line)
  let line ← (if fieldIndex ≤ 2 && 2 < fieldIndex + fieldValues.length then
      (goIndex fieldValues (2 - fieldIndex)).map (fun v => { line with V2 := v })
    else pure line)
  let line ← (if fieldIndex ≤ 3 && 3 < fieldIndex + fieldValues.length then
      (goIndex fieldValues (3 - fieldIndex)).map (fun v => { line with V3 := v })
    else pure line)
  let line ← (if fieldIndex ≤ 4 && 4 < fieldIndex + fieldValues.length then
      (goIndex fieldValues (4 - fieldIndex)).map (fun v => { line with V4 := v })
    else pure line)
  let line ← (if fieldIndex ≤ 5 && 5 < fieldIndex + fieldValues.length then
      (goIndex fieldValues (5 - fieldIndex)).map (fun v => { line with V5 := v })
    else pure line)
  let line ← (if fieldIndex ≤ 6 && 6 < fieldIndex + fieldValues.length then
      (goIndex fieldValues (6 - fieldIndex)).map (fun v => { line with V6 := v })
    else pure line)
  let line ← (if fieldIndex ≤ 7 && 7 < fieldIndex + fieldValues.length then
      (goIndex fieldValues (7 - fieldIndex)).map (fun v => { line with V7 := v })
    else pure line)
  pure line

/-- The value the offset filter addresses to column `i`: `fieldValues[i - fieldIndex]`
inside the window `fieldIndex <= i < fieldIndex + len(fieldValues)`, empty outside. -/
def windowValue (fieldIndex : Int) (fieldValues : List String) (i : Int) : String :=
  if fieldIndex ≤ i ∧ i < fieldIndex + fieldValues.length then
    fieldValues.getD (i - fieldIndex).toNat ""
  else ""

/-! ## Filtered update -/

/-- The loop of `UpdateFilteredPolicies` (adapter.go 556-570) inside the
transaction: per new record, select the rows matching `line` into `oldP`,
delete them, insert the new record.  The state is the transaction's view of
the table and the slice `oldP`; the first failing statement ends the loop. -/
def UpdateFilteredPolicies.loop (line : CasbinRule) :
    List CasbinRule → Table → List CasbinRule → Except Failure (Table × List CasbinRule)
  | [], tx, oldP => .ok (tx, oldP)
  | newLine :: rest, tx, _ => do
    let q := line.queryString
    let oldP ← dbFind tx q.1 q.2
    let tx ← dbDelete tx q.1 q.2
    let tx ← dbCreate tx newLine
    UpdateFilteredPolicies.loop line rest tx oldP

/-- The method `UpdateFilteredPolicies` (adapter.go 518-579): the table afterwards
and the returned rules or failure.  A failure inside the loop rolls the
transaction back, which restores the table as it was at `Begin`; the commit
itself is taken to succeed. -/
def UpdateFilteredPolicies (db : Table) (_sec : String) (ptype : String)
    (newPolicies : List (List String)) (fieldIndex : Int) (fieldValues : List String) :
    Table × Except Failure (List (List String)) :=
  match UpdateFilteredPolicies.fill ptype fieldIndex fieldValues with
  | .error err => (db, .error err)
  | .ok line =>
    let newP := newPolicies.map (savePolicyLine ptype)
    match UpdateFilteredPolicies.loop line newP db [] with
    | .error err => (db, .error err)
    | .ok (tx, oldP) => (tx, .ok (oldP.map CasbinRule.toStringPolicy))

/-- The method `AddRule` (adapter.go 323-327): the table afterwards and the returned error. -/
def AddRule (db : Table) (rule : List String) : Table × Option Failure :=
  match fromTuple rule with
  | .error err => (db, some err)
  | .ok line =>
    match dbCreate db line with
    | .error err => (db, some err)
    | .ok db' => (db', none)

/-- The round trip of the specification, `fromTuple(toTuple(fromTuple(t)))`, with
`toTuple` the tuple `loadPolicyLine` produces. -/
def roundTrip (t : List String) : Except Failure CasbinRule := do
  let r ← fromTuple t
  let t' ← loadPolicyLine r
  fromTuple t'

/-- The store of the specification's end-to-end example: the rules `("p","a","b")`
and `("p","a","c")`, inserted in that order. -/
def twoRules : Table :=
  [⟨1, "p", "a", "b", "", "", "", "", "", ""⟩, ⟨2, "p", "a", "c", "", "", "", "", "", ""⟩]

/-- The method `RemoveRule` (adapter.go 330-334): the table afterwards and the
returned error. -/
def RemoveRule (db : Table) (rule : List String) : Table × Option Failure :=
  match fromTuple rule with
  | .error err => (db, some err)
  | .ok line => rawDelete db line

/-- The records a tuple selects for removal, in the words of the specification:
the policy type is `t[0]`, and column `i` holds `t[i+1]` for every `i < 8` at
which the tuple has a non-empty element; an empty or absent element constrains
nothing. -/
def removeRuleSelects (t : List String) (r : CasbinRule) : Bool :=
  t[0]? == some r.Ptype &&
    (List.range 8).all fun i =>
      match t[i + 1]? with
      | some v => v == "" || r.fields[i]? == some v
      | none => true

/-- A rule stored and loaded again: the tuple `loadPolicyLine` produces for the
record `savePolicyLine(t[0], t[1:])`. -/
def storeAndLoad (t : List String) : Except Failure (List String) := do
  let r ← fromTuple t
  loadPolicyLine r

/-! ## Filtered load -/

/-- The type `Filter` (adapter.go 51-61). -/
structure Filter where
  Ptype : List String
  V0 : List String
  V1 : List String
  V2 : List String
  V3 : List String
  V4 : List String
  V5 : List String
  V6 : List String
  V7 : List String
  deriving DecidableEq, Repr

/-- The conditions a gorm query carries: each `Where(text, values)` adds one pair,
and a row is selected when it satisfies all of them. -/
abbrev Conditions := List (String × List String)

/-- The scope `filterQuery` returns (adapter.go 222-253), applied to the conditions
the query already carries. -/
def filterQuery (filter : Filter) (db : Conditions) : Conditions :=
  let db := if filter.Ptype.length > 0 then db ++ [("ptype in (?)", filter.Ptype)] else db
  let db := if filter.V0.length > 0 then db ++ [("v0 in (?)", filter.V0)] else db
  let db := if filter.V1.length > 0 then db ++ [("v1 in (?)", filter.V1)] else db
  let db := if filter.V2.length > 0 then db ++ [("v2 in (?)", filter.V2)] else db
  let db := if filter.V3.length > 0 then db ++ [("v3 in (?)", filter.V3)] else db
  let db := if filter.V4.length > 0 then db ++ [("v4 in (?)", filter.V4)] else db
  let db := if filter.V5.length > 0 then db ++ [("v5 in (?)", filter.V5)] else db
  let db := if filter.V6.length > 0 then db ++ [("v6 in (?)", filter.V6)] else db
  let db := if filter.V7.length > 0 then db ++ [("v7 in (?)", filter.V7)] else db
  db

/-- The nine value lists of a filter, in column order `ptype, v0, ..., v7`. -/
def Filter.lists (f : Filter) : List (List String) :=
  [f.Ptype, f.V0, f.V1, f.V2, f.V3, f.V4, f.V5, f.V6, f.V7]

/-- The membership conditions in the words of the specification: for each of the
nine columns whose value list is non-empty, `column in (?)` with that list, in
column order. -/
def setPredicateSpec (f : Filter) : Conditions :=
  ((columnNames.zip f.lists).filter (fun cv => cv.2.length > 0)).map
    fun cv => (cv.1 ++ " in (?)", cv.2)

/-- One step of `filterQuery`: add the membership condition of a column when its
value list is non-empty.  Used to reason about the nine steps at once. -/
def addMembership (db : Conditions) (cv : String × List String) : Conditions :=
  if cv.2.length > 0 then db ++ [(cv.1 ++ " in (?)", cv.2)] else db

/-- Reads a condition text of the form `<column> in (?)`: the column. -/
def sqlMembership (text : String) : Option String :=
  columnNames.find? fun c => text == c ++ " in (?)"

/-- Reads the conditions of a query as memberships of columns in value lists;
`none` when a text is not of the form `<column> in (?)`. -/
def sqlParseIn : Conditions → Option (List (String × List String))
  | [] => some []
  | (text, values) :: rest =>
    match sqlMembership text, sqlParseIn rest with
    | some c, some ms => some ((c, values) :: ms)
    | _, _ => none

/-- A row satisfies every membership: its value in the column is one of the values. -/
def sqlHoldsIn (ms : List (String × List String)) (row : CasbinRule) : Bool :=
  ms.all fun cv =>
    match row.column cv.1 with
    | some v => cv.2.contains v
    | none => false

/-- The statement `db.Scopes(scope).Order("ID").Find(&lines)`: the rows that satisfy
the conditions, in ascending id order. -/
def dbFindOrdered (t : Table) (conds : Conditions) : Except Failure (List CasbinRule) :=
  match sqlParseIn conds with
  | none => .error (.error "malformed statement")
  | some ms => .ok ((t.filter (sqlHoldsIn ms)).insertionSort (fun a b => a.ID ≤ b.ID))

/-- A row is selected by a filter: it satisfies the conditions `filterQuery` adds
to a query that carries none. -/
def Filter.selects (f : Filter) (row : CasbinRule) : Bool :=
  match sqlParseIn (filterQuery f []) with
  | none => false
  | some ms => sqlHoldsIn ms row

/-! ## Filtered update when statements can fail -/

/-- The answers of the database client that do not follow from the table: `faults n`
is the error with which the statement number `n` of a call fails (a lost
connection, a timeout, ...), `none` when the client leaves that statement to
the table. -/
abbrev Faults := Nat → Option Failure

/-- A statement under the client's answers: it fails with the client's error when
there is one, and otherwise does what it does on the table. -/
def withFault {α : Type} (faults : Faults) (n : Nat) (stmt : Except Failure α) :
    Except Failure α :=
  match faults n with
  | some err => .error err
  | none => stmt

/-- A transaction as a snapshot: the table as it was at `Begin` and the
transaction's own view of it. -/
structure Tx where
  snapshot : Table
  view : Table
  deriving DecidableEq, Repr

/-- The call `a.db.Begin()`. -/
def Begin (db : Table) : Tx :=
  { snapshot := db, view := db }

/-- The call `tx.Rollback()`: the table is again what it was at `Begin`. -/
def Tx.Rollback (tx : Tx) : Table :=
  tx.snapshot

/-- The call `tx.Commit()`: the transaction's view becomes the table. -/
def Tx.Commit (tx : Tx) : Table :=
  tx.view

/-- The loop of `UpdateFilteredPolicies` (adapter.go 556-570) when statements can
fail: `n` numbers the next statement (select, delete and insert of iteration `k`
are the statements `3k`, `3k+1`, `3k+2`).  The result is the transaction as it
stands when the loop ends, with `oldP`, or with the error of the statement that
failed. -/
def UpdateFilteredPolicies.loopWith (faults : Faults) (line : CasbinRule) :
    List CasbinRule → Nat → Tx → List CasbinRule → Tx × Except Failure (List CasbinRule)
  | [], _, tx, oldP => (tx, .ok oldP)
  | newLine :: rest, n, tx, _ =>
    let q := line.queryString
    match withFault faults n (dbFind tx.view q.1 q.2) with
    | .error err => (tx, .error err)
    | .ok oldP =>
      match withFault faults (n + 1) (dbDelete tx.view q.1 q.2) with
      | .error err => (tx, .error err)
      | .ok view =>
        match withFault faults (n + 2) (dbCreate view newLine) with
        | .error err => ({ tx with view := view }, .error err)
        | .ok view' =>
          UpdateFilteredPolicies.loopWith faults line rest (n + 3) { tx with view := view' } oldP

/-- The method `UpdateFilteredPolicies` (adapter.go 518-579) when statements can
fail: on a failure in the loop `tx.Rollback()` is called and `nil, err`
returned, otherwise the rules of `oldP` are returned and the transaction is
committed (the commit itself is taken to succeed). -/
def UpdateFilteredPoliciesWith (faults : Faults) (db : Table) (_sec : String) (ptype : String)
    (newPolicies : List (List String)) (fieldIndex : Int) (fieldValues : List String) :
    Table × Except Failure (List (List String)) :=
  match UpdateFilteredPolicies.fill ptype fieldIndex fieldValues with
  | .error err => (db, .error err)
  | .ok line =>
    let newP := newPolicies.map (savePolicyLine ptype)
    let tx := Begin db
    match UpdateFilteredPolicies.loopWith faults line newP 0 tx [] with
    | (tx, .error err) => (tx.Rollback, .error err)
    | (tx, .ok oldP) => (tx.Commit, .ok (oldP.map CasbinRule.toStringPolicy))

/-- The client that fails the statement number `m` with a lost connection and
answers every other statement from the table. -/
def failAt (m : Nat) : Faults :=
  fun n => if n = m then some (.error "connection lost") else none

/-! ## Full save -/

/-- The constant `flushEvery := 1000` of `SavePolicy` (adapter.go 300). -/
def flushEvery : Nat := 1000

/-- The variables of `SavePolicy` the visitor closes over (adapter.go 298-299), and
the batches handed to `db.Create` so far, in issue order. -/
structure SavePolicy.Vars where
  createErr : Option Failure
  lines : List CasbinRule
  issued : List (List CasbinRule)
  deriving DecidableEq, Repr

/-- The answers of the database client to the inserts of a save: `create n batch`
is the error of the insert number `n` carrying `batch`, `none` when it succeeds. -/
abbrev CreateAnswers := Nat → List CasbinRule → Option Failure

/-- The visitor `SavePolicy` passes to `RangeRules` (adapter.go 301-310): the
variables afterwards and the returned `bool`.  The statement
`createErr := a.db.Create(&lines).Error` inside the `if` declares a variable of
its own, so the error of a failed insert is not assigned to the `createErr` of
`SavePolicy`; after a failed insert `lines` keeps the batch. -/
def SavePolicy.visitor (create : CreateAnswers) (v : SavePolicy.Vars) (rule : List String) :
    Except Failure (SavePolicy.Vars × Bool) :=
  match fromTuple rule with
  | .error err => .error err
  | .ok line =>
    let lines := v.lines ++ [line]
    if lines.length > flushEvery then
      match create v.issued.length lines with
      | some _ => .ok ({ v with lines := lines, issued := v.issued ++ [lines] }, false)
      | none => .ok ({ v with lines := [], issued := v.issued ++ [lines] }, true)
    else .ok ({ v with lines := lines }, true)

/-- Modelled from the spec: `model.RangeRules(visitor)` of the authorization engine,
which is not part of adapter.go, calls the visitor on every rule in order and
stops early when the visitor returns false.  The result is the variables
afterwards and the panic, if the visitor panicked. -/
def RangeRules (visitor : SavePolicy.Vars → List String → Except Failure (SavePolicy.Vars × Bool)) :
    List (List String) → SavePolicy.Vars → SavePolicy.Vars × Option Failure
  | [], v => (v, none)
  | rule :: rest, v =>
    match visitor v rule with
    | .error err => (v, some err)
    | .ok (v', true) => RangeRules visitor rest v'
    | .ok (v', false) => (v', none)

/-- The method `SavePolicy` (adapter.go 288-320): the batches handed to `db.Create`,
in issue order, and the returned error.  `dropTable` and `createTable` are the
errors of the two calls that come first. -/
def SavePolicy (dropTable createTable : Option Failure) (create : CreateAnswers)
    (rules : List (List String)) : List (List CasbinRule) × Option Failure :=
  match dropTable with
  | some err => ([], some err)
  | none =>
    match createTable with
    | some err => ([], some err)
    | none =>
      match RangeRules (SavePolicy.visitor create) rules
          { createErr := none, lines := [], issued := [] } with
      | (v, some err) => (v.issued, some err)
      | (v, none) =>
        match v.createErr with
        | some createErr => (v.issued, some createErr)
        | none =>
          match create v.issued.length v.lines with
          | some err => (v.issued ++ [v.lines], some err)
          | none => (v.issued ++ [v.lines], none)

/-- A model of `n` distinct rules `("p", "0")`, `("p", "1")`, ... -/
def numberedRules (n : Nat) : List (List String) :=
  (List.range n).map fun i => ["p", toString i]

/-- The client whose every insert succeeds. -/
def createOk : CreateAnswers :=
  fun _ _ => none

/-- The client whose first insert fails with a lost connection and whose later
inserts succeed. -/
def createFailsFirst : CreateAnswers :=
  fun n _ => if n = 0 then some (.error "connection lost") else none

/-- The record `SavePolicy` builds from a rule, `savePolicyLine(rule[0], rule[1:])`,
for a rule that has a first element. -/
def ruleRecord (rule : List String) : CasbinRule :=
  savePolicyLine (rule.headD "") rule.tail

/-! ## The adapter and its filtered flag -/

/-- The type `Adapter` (adapter.go 64-68): the table behind its database handle and
the flag `isFiltered`; the table name is fixed at construction and left out. -/
structure Adapter where
  db : Table
  isFiltered : Bool
  deriving DecidableEq, Repr

/-- The constructor `NewAdapterWithTable` (adapter.go 84-100): the literal
`&Adapter{tableName: tableName}` leaves `isFiltered` at its zero value;
`createTable` is the error of the call that ensures the table. -/
def NewAdapterWithTable (db : Table) (createTable : Option Failure) : Except Failure Adapter :=
  match createTable with
  | some err => .error err
  | none => .ok { db := db, isFiltered := false }

/-- The method `IsFiltered` (adapter.go 217-219). -/
def Adapter.IsFiltered (a : Adapter) : Bool :=
  a.isFiltered

/-- The argument `filter interface{}` of `LoadFilteredPolicy`: a value of type
`Filter`, or any other value (nil, a pointer to a `Filter`, a string, ...). -/
inductive FilterArg where
  | filter (f : Filter)
  | other (description : String)
  deriving DecidableEq, Repr

/-- The loop `for _, line := range lines { loadPolicyLine(line, model) }` of the two
loads (adapter.go 188-190, 208-210): the sink is the list of tuples it has
received; a panic of `loadPolicyLine` ends the loop. -/
def loadLines : List CasbinRule → List (List String) → List (List String) × Option Failure
  | [], model => (model, none)
  | line :: rest, model =>
    match loadPolicyLine line with
    | .error err => (model, some err)
    | .ok p => loadLines rest (model ++ [p])

/-- The method `LoadPolicy` (adapter.go 182-193): the adapter and the sink
afterwards and the returned error. -/
def Adapter.LoadPolicy (a : Adapter) (faults : Faults) (model : List (List String)) :
    Adapter × List (List String) × Option Failure :=
  match withFault faults 0 (dbFindOrdered a.db []) with
  | .error err => (a, model, some err)
  | .ok lines =>
    match loadLines lines model with
    | (model', err) => (a, model', err)

/-- The method `LoadFilteredPolicy` (adapter.go 196-214): the adapter and the sink
afterwards and the returned error. -/
def Adapter.LoadFilteredPolicy (a : Adapter) (faults : Faults) (model : List (List String))
    (filter : FilterArg) : Adapter × List (List String) × Option Failure :=
  match filter with
  | .other _ => (a, model, some (.error "invalid filter type"))
  | .filter filterValue =>
    match withFault faults 0 (dbFindOrdered a.db (filterQuery filterValue [])) with
    | .error err => (a, model, some err)
    | .ok lines =>
      match loadLines lines model with
      | (model', some err) => (a, model', some err)
      | (model', none) => ({ a with isFiltered := true }, model', none)

/-- The database side of the write operations whose statements are not modelled
here one by one: for each, the table afterwards and the returned error, as
the client produces them. -/
structure Client where
  savePolicy : Table → List (List String) → Table × Option Failure
  addRules : Table → List (List String) → Table × Option Failure
  removeRules : Table → List (List String) → Table × Option Failure
  updatePolicy : Table → String → List String → List String → Table × Option Failure
  updatePolicies : Table → String → List (List String) → List (List String) →
    Table × Option Failure

/-- A call of one of the public methods of the adapter, with its arguments. -/
inductive Call where
  | LoadPolicy
  | LoadFilteredPolicy (filter : FilterArg)
  | SavePolicy (rules : List (List String))
  | AddRule (rule : List String)
  | RemoveRule (rule : List String)
  | AddRules (rules : List (List String))
  | RemoveRules (rules : List (List String))
  | RemoveFilteredPolicy (sec ptype : String) (fieldIndex : Int) (fieldValues : List String)
  | UpdatePolicy (sec ptype : String) (oldRule newPolicy : List String)
  | UpdatePolicies (sec ptype : String) (oldRules newRules : List (List String))
  | UpdateFilteredPolicies (sec ptype : String) (newPolicies : List (List String))
      (fieldIndex : Int) (fieldValues : List String)

/-- A write operation on the adapter: it works on the table behind the handle and
assigns no other field of the adapter. -/
def Adapter.write (a : Adapter) (model : List (List String)) (r : Table × Option Failure) :
    Adapter × List (List String) × Option Failure :=
  ({ a with db := r.1 }, model, r.2)

/-- The adapter and the sink after a call, and the error the call returns. -/
def Adapter.call (client : Client) (faults : Faults) (a : Adapter) (model : List (List String)) :
    Call → Adapter × List (List String) × Option Failure
  | .LoadPolicy => a.LoadPolicy faults model
  | .LoadFilteredPolicy filter => a.LoadFilteredPolicy faults model filter
  | .SavePolicy rules => a.write model (client.savePolicy a.db rules)
  | .AddRule rule => a.write model (AddRule a.db rule)
  | .RemoveRule rule => a.write model (RemoveRule a.db rule)
  | .AddRules rules => a.write model (client.addRules a.db rules)
  | .RemoveRules rules => a.write model (client.removeRules a.db rules)
  | .RemoveFilteredPolicy sec ptype fieldIndex fieldValues =>
    a.write model (RemoveFilteredPolicy a.db sec ptype fieldIndex fieldValues)
  | .UpdatePolicy _ ptype oldRule newPolicy =>
    a.write model (client.updatePolicy a.db ptype oldRule newPolicy)
  | .UpdatePolicies _ ptype oldRules newRules =>
    a.write model (client.updatePolicies a.db ptype oldRules newRules)
  | .UpdateFilteredPolicies sec ptype newPolicies fieldIndex fieldValues =>
    match UpdateFilteredPoliciesWith faults a.db sec ptype newPolicies fieldIndex fieldValues with
    | (db', .error err) => a.write model (db', some err)
    | (db', .ok _) => a.write model (db', none)

/-- A sequence of calls, each with the client's answers to its statements, run one
after the other on the adapter and the sink. -/
def Adapter.run (client : Client) (a : Adapter) (model : List (List String)) :
    List (Call × Faults) → Adapter × List (List String)
  | [] => (a, model)
  | (c, faults) :: rest =>
    match Adapter.call client faults a model c with
    | (a', model', _) => Adapter.run client a' model' rest

/-- Whether a call is a `LoadFilteredPolicy`. -/
def Call.isLoadFiltered : Call → Bool
  | .LoadFilteredPolicy _ => true
  | _ => false

/-- A client for examples: its five operations leave the table as it is and return
no error. -/
def idleClient : Client :=
  { savePolicy := fun t _ => (t, none)
    addRules := fun t _ => (t, none)
    removeRules := fun t _ => (t, none)
    updatePolicy := fun t _ _ _ => (t, none)
    updatePolicies := fun t _ _ _ => (t, none) }

/-! # Theorems -/

/-! ## Equality predicates: the three builders and how the database reads them -/

theorem queryString_eq_foldl (r : CasbinRule) :
    r.queryString = (columnNames.tail.zip r.fields).foldl addClause ("ptype = ?", [r.Ptype]) :=
  rfl

theorem string_join_cons (s : String) (l : List String) :
    String.join (s :: l) = s ++ String.join l := by
  have h : ∀ (l : List String) (a : String),
      List.foldl (fun r s => r ++ s) a l = a ++ List.foldl (fun r s => r ++ s) "" l := by
    intro l
    induction l with
    | nil => intro a; simp
    | cons x xs ih =>
      intro a
      simp only [List.foldl_cons]
      rw [ih (a ++ x), ih ("" ++ x)]
      simp [String.append_assoc]
  simp only [String.join, List.foldl_cons]
  rw [h]
  simp

theorem foldl_addClause (l : List (String × String)) (s : String) (as : List String) :
    l.foldl addClause (s, as) =
      (s ++ String.join ((l.filter (fun cv => cv.2 != "")).map fun cv => " and " ++ cv.1 ++ " = ?"),
        as ++ (l.filter (fun cv => cv.2 != "")).map (fun cv => cv.2)) := by
  induction l generalizing s as with
  | nil => simp [String.join]
  | cons cv l ih =>
    by_cases h : cv.2 = ""
    · simp [List.foldl_cons, addClause, h, ih]
    · simp [List.foldl_cons, addClause, h, ih, string_join_cons, String.append_assoc]

theorem queryString_eq_spec (r : CasbinRule) : r.queryString = equalityPredicateSpec r := by
  rw [queryString_eq_foldl, foldl_addClause]
  rfl

theorem constrained_names (r : CasbinRule) : ∀ cv ∈ r.constrained, cv.1 ∈ columnNames := by
  intro cv h
  have h1 := (List.mem_filter.mp h).1
  simp only [columnNames, List.tail_cons, CasbinRule.fields, List.zip_cons_cons, List.zip_nil_right,
    List.mem_cons, List.mem_singleton, List.not_mem_nil, or_false] at h1
  rcases h1 with h | h | h | h | h | h | h | h <;> simp [h, columnNames]

theorem constrained_values (r : CasbinRule) :
    r.constrained.map (fun cv => cv.2) = r.fields.filter (fun v => v != "") := by
  have h : ∀ (ns vs : List String), ns.length = vs.length →
      ((ns.zip vs).filter (fun cv => cv.2 != "")).map (fun cv => cv.2) = vs.filter (fun v => v != "") := by
    intro ns
    induction ns with
    | nil => intro vs h; cases vs <;> simp_all
    | cons n ns ih =>
      intro vs h
      cases vs with
      | nil => simp at h
      | cons v vs =>
        have := ih vs (by simpa using h)
        by_cases hv : v = "" <;> simp [List.filter_cons, hv, this]
  exact h _ _ (by simp [columnNames, CasbinRule.fields])

theorem placeholders_append (a b : String) :
    placeholders (a ++ b) = placeholders a + placeholders b := by
  simp [placeholders]

theorem placeholders_clauses (l : List (String × String)) (hl : ∀ cv ∈ l, cv.1 ∈ columnNames) :
    placeholders (String.join (l.map fun cv => " and " ++ cv.1 ++ " = ?")) = l.length := by
  induction l with
  | nil => decide
  | cons cv l ih =>
    have h0 : placeholders cv.1 = 0 := by
      have := hl cv (List.mem_cons_self _ _)
      simp only [columnNames, List.mem_cons, List.mem_singleton, List.not_mem_nil, or_false] at this
      rcases this with h | h | h | h | h | h | h | h | h <;> rw [h] <;> decide
    have h1 : placeholders " and " = 0 := by decide
    have h2 : placeholders " = ?" = 1 := by decide
    simp only [List.map_cons, string_join_cons, placeholders_append, h0, h1, h2, List.length_cons,
      ih (fun x hx => hl x (List.mem_cons_of_mem _ hx))]
    omega

/-- C1. The three equality-predicate builders return the same text and arguments:
the clause `ptype = ?` followed by ` and vI = ?` for exactly the non-empty
fields `VI` in column order, with `Ptype` and those field values as arguments;
placeholders and arguments both number one more than the non-empty fields, and a
record with only `Ptype` set gives the single clause `ptype = ?`. -/
theorem equality_builders_agree (r : CasbinRule) :
    rawDeleteQuery r = r.queryString ∧ appendWhere r = r.queryString ∧
    r.queryString = equalityPredicateSpec r ∧
    r.queryString.2 = r.Ptype :: r.fields.filter (fun v => v != "") ∧
    placeholders r.queryString.1 = r.queryString.2.length ∧
    r.queryString.2.length = 1 + (r.fields.filter (fun v => v != "")).length ∧
    (∀ (id : Nat) (ptype : String),
      CasbinRule.queryString ⟨id, ptype, "", "", "", "", "", "", "", ""⟩ = ("ptype = ?", [ptype])) := by
  refine ⟨rfl, rfl, queryString_eq_spec r, ?_, ?_, ?_, fun _ _ => rfl⟩
  · rw [queryString_eq_spec]
    simp only [equalityPredicateSpec, constrained_values]
  · rw [queryString_eq_spec]
    have h1 : placeholders "ptype = ?" = 1 := by decide
    simp only [equalityPredicateSpec, placeholders_append, h1,
      placeholders_clauses _ (constrained_names r), List.length_cons, List.length_map]
    omega
  · rw [queryString_eq_spec]
    simp only [equalityPredicateSpec, List.length_cons, constrained_values]
    omega

theorem sqlComparison_head (c : String) (hc : c ∈ columnNames) (rest : List Char) :
    sqlComparison (c.data ++ " = ?".data ++ rest) = some (c, rest) := by
  simp only [columnNames, List.mem_cons, List.mem_singleton, List.not_mem_nil, or_false] at hc
  rcases hc with h | h | h | h | h | h | h | h | h <;> subst h <;>
    simp [sqlComparison, columnNames, List.findSome?, List.isPrefixOf]

/-- The text of a conjunction, with its arguments, reads back as that conjunction. -/
theorem sqlParseWhere_clauses (l : List (String × String)) (hl : ∀ cv ∈ l, cv.1 ∈ columnNames)
    (c a : String) (hc : c ∈ columnNames) :
    sqlParseWhere ((c ++ " = ?") ++ String.join (l.map fun cv => " and " ++ cv.1 ++ " = ?")).data
      (a :: l.map (fun cv => cv.2)) = some ((c, a) :: l) := by
  induction l generalizing c a with
  | nil =>
    have h := sqlComparison_head c hc []
    simp only [List.append_nil] at h
    simp only [List.map_nil, String.join, List.foldl_nil, String.data_append, sqlParseWhere]
    rw [List.append_nil, h]
    simp
  | cons cv l ih =>
    have h1 := ih (fun x hx => hl x (List.mem_cons_of_mem _ hx)) cv.1 cv.2
      (hl cv (List.mem_cons_self _ _))
    simp only [String.data_append] at h1
    simp only [List.map_cons, string_join_cons, String.data_append]
    rw [sqlParseWhere, sqlComparison_head c hc]
    have e : " and ".data = [' ', 'a', 'n', 'd', ' '] := rfl
    simp only [e, List.append_assoc, List.cons_append, List.nil_append] at h1 ⊢
    simp only [List.isPrefixOf, List.drop, reduceCtorEq, if_false, beq_self_eq_true, Bool.true_and,
      if_true, h1, Option.map_some']

theorem sqlParseWhere_queryString (line : CasbinRule) :
    sqlParseWhere line.queryString.1.data line.queryString.2 =
      some (("ptype", line.Ptype) :: line.constrained) := by
  rw [queryString_eq_spec]
  exact sqlParseWhere_clauses line.constrained (constrained_names line) "ptype" line.Ptype
    (by simp [columnNames])

theorem all_filter_eq {α : Type} (l : List α) (p f : α → Bool) :
    (l.filter p).all f = l.all (fun x => !p x || f x) := by
  induction l with
  | nil => rfl
  | cons x xs ih => by_cases h : p x <;> simp [List.filter_cons, h, ih]

theorem sqlHolds_queryString (line row : CasbinRule) :
    sqlHolds (("ptype", line.Ptype) :: line.constrained) row = line.matchesLine row := by
  simp only [sqlHolds, List.all_cons, CasbinRule.constrained, all_filter_eq]
  simp [columnNames, CasbinRule.fields, CasbinRule.column, CasbinRule.matchesLine, Bool.and_assoc,
    bne, Bool.not_not]

/-- The select of the filtered update returns the rows matching the record. -/
theorem dbFind_queryString (t : Table) (line : CasbinRule) :
    dbFind t line.queryString.1 line.queryString.2 = .ok (t.filter line.matchesLine) := by
  simp only [dbFind, sqlParseWhere_queryString]
  congr 2
  funext row
  exact sqlHolds_queryString line row

/-- The delete of the filtered update removes the rows matching the record. -/
theorem dbDelete_queryString (t : Table) (line : CasbinRule) :
    dbDelete t line.queryString.1 line.queryString.2 =
      .ok (t.filter (fun row => !line.matchesLine row)) := by
  simp only [dbDelete, sqlParseWhere_queryString]
  congr 2
  funext row
  rw [sqlHolds_queryString]

/-- The function `rawDelete` never fails on the statement it builds, and removes
exactly the rows matching the record. -/
theorem rawDelete_eq (db : Table) (line : CasbinRule) :
    rawDelete db line = (db.filter (fun row => !line.matchesLine row), none) := by
  have h : rawDeleteQuery line = line.queryString := rfl
  simp only [rawDelete, h, dbDelete_queryString]

/-! ## Offset filters -/

theorem goIndex_window (fieldIndex : Int) (fieldValues : List String) (i : Int)
    (h : (decide (fieldIndex ≤ i) && decide (i < fieldIndex + fieldValues.length)) = true) :
    goIndex fieldValues (i - fieldIndex) = .ok (windowValue fieldIndex fieldValues i) := by
  simp only [Bool.and_eq_true, decide_eq_true_eq] at h
  have h1 : ¬ (i - fieldIndex < 0) := by omega
  have h2 : (i - fieldIndex).toNat < fieldValues.length := by omega
  simp only [goIndex, h1, if_false, windowValue, h, and_self, if_true, List.getD_eq_getElem?_getD,
    List.getElem?_eq_getElem h2, Option.getD_some]

theorem ok_bind {α β : Type} (x : α) (f : α → Except Failure β) : (Except.ok x >>= f) = f x :=
  rfl

/-- One guarded assignment of the fill, on a record whose column is still empty:
it never panics and leaves the window value in the column. -/
theorem fill_step (fieldIndex : Int) (fieldValues : List String) (i : Int)
    (set : String → CasbinRule) (line : CasbinRule) (hset : set "" = line) :
    (if (decide (fieldIndex ≤ i) && decide (i < fieldIndex + fieldValues.length)) = true then
        (goIndex fieldValues (i - fieldIndex)).map set else pure line) =
      (.ok (set (windowValue fieldIndex fieldValues i)) : Except Failure CasbinRule) := by
  by_cases h : (decide (fieldIndex ≤ i) && decide (i < fieldIndex + fieldValues.length)) = true
  · rw [if_pos h, goIndex_window _ _ _ h]
    rfl
  · rw [if_neg h]
    simp only [Bool.and_eq_true, decide_eq_true_eq] at h
    simp only [windowValue, h, if_false, hset]
    rfl

theorem UpdateFilteredPolicies.fill_eq (ptype : String) (fieldIndex : Int)
    (fieldValues : List String) :
    UpdateFilteredPolicies.fill ptype fieldIndex fieldValues =
      .ok ⟨0, ptype, windowValue fieldIndex fieldValues 0, windowValue fieldIndex fieldValues 1,
        windowValue fieldIndex fieldValues 2, windowValue fieldIndex fieldValues 3,
        windowValue fieldIndex fieldValues 4, windowValue fieldIndex fieldValues 5,
        windowValue fieldIndex fieldValues 6, windowValue fieldIndex fieldValues 7⟩ := by
  simp only [UpdateFilteredPolicies.fill, getTableInstance]
  rw [fill_step fieldIndex fieldValues 0 _ _ rfl, ok_bind]
  rw [fill_step fieldIndex fieldValues 1 _ _ rfl, ok_bind]
  rw [fill_step fieldIndex fieldValues 2 _ _ rfl, ok_bind]
  rw [fill_step fieldIndex fieldValues 3 _ _ rfl, ok_bind]
  rw [fill_step fieldIndex fieldValues 4 _ _ rfl, ok_bind]
  rw [fill_step fieldIndex fieldValues 5 _ _ rfl, ok_bind]
  rw [fill_step fieldIndex fieldValues 6 _ _ rfl, ok_bind]
  rw [fill_step fieldIndex fieldValues 7 _ _ rfl, ok_bind]
  rfl

theorem RemoveFilteredPolicy.fill_eq_update (ptype : String) (fieldIndex : Int)
    (fieldValues : List String) :
    RemoveFilteredPolicy.fill ptype fieldIndex fieldValues =
      UpdateFilteredPolicies.fill ptype fieldIndex fieldValues := rfl

theorem checkQueryField_ok_iff (fieldValues : List String) :
    checkQueryField fieldValues = .ok () ↔ ∃ v ∈ fieldValues, v ≠ "" := by
  induction fieldValues with
  | nil => simp [checkQueryField]
  | cons v vs ih =>
    by_cases h : v = ""
    · simp [checkQueryField, h, ih]
    · simp [checkQueryField, h]

theorem checkQueryField_error_iff (fieldValues : List String) :
    checkQueryField fieldValues =
        .error (.error "the query field cannot all be empty string (\"\"), please check") ↔
      ∀ v ∈ fieldValues, v = "" := by
  induction fieldValues with
  | nil => simp [checkQueryField]
  | cons v vs ih =>
    by_cases h : v = ""
    · simp [checkQueryField, h, ih]
    · simp [checkQueryField, h]

theorem RemoveFilteredPolicy.deleteLine_eq (ptype : String) (fieldIndex : Int)
    (fieldValues : List String) (hidx : fieldIndex ≠ -1)
    (hok : checkQueryField fieldValues = .ok ()) :
    RemoveFilteredPolicy.deleteLine ptype fieldIndex fieldValues =
      UpdateFilteredPolicies.fill ptype fieldIndex fieldValues := by
  simp only [RemoveFilteredPolicy.deleteLine, hidx, if_false, hok]
  rfl

/-- C2. When the filter is not rejected, the record `RemoveFilteredPolicy` deletes
by has `Ptype = ptype` and in each column `i` of 0..7 the value
`fieldValues[i - fieldIndex]` inside the window and `""` outside it, no index
being out of range; `UpdateFilteredPolicies` builds the same record. -/
theorem offset_filter_record (ptype : String) (fieldIndex : Int) (fieldValues : List String)
    (hidx : fieldIndex ≠ -1) (hok : checkQueryField fieldValues = .ok ()) :
    RemoveFilteredPolicy.deleteLine ptype fieldIndex fieldValues =
      .ok ⟨0, ptype, windowValue fieldIndex fieldValues 0, windowValue fieldIndex fieldValues 1,
        windowValue fieldIndex fieldValues 2, windowValue fieldIndex fieldValues 3,
        windowValue fieldIndex fieldValues 4, windowValue fieldIndex fieldValues 5,
        windowValue fieldIndex fieldValues 6, windowValue fieldIndex fieldValues 7⟩ ∧
    UpdateFilteredPolicies.fill ptype fieldIndex fieldValues =
      RemoveFilteredPolicy.deleteLine ptype fieldIndex fieldValues ∧
    (∀ i : Int, fieldIndex ≤ i → i < fieldIndex + fieldValues.length →
      fieldValues[(i - fieldIndex).toNat]? = some (windowValue fieldIndex fieldValues i)) ∧
    (∀ i : Int, ¬ (fieldIndex ≤ i ∧ i < fieldIndex + fieldValues.length) →
      windowValue fieldIndex fieldValues i = "") := by
  refine ⟨?_, ?_, ?_, ?_⟩
  · rw [RemoveFilteredPolicy.deleteLine_eq _ _ _ hidx hok, UpdateFilteredPolicies.fill_eq]
  · rw [RemoveFilteredPolicy.deleteLine_eq _ _ _ hidx hok]
  · intro i h1 h2
    have h3 : (i - fieldIndex).toNat < fieldValues.length := by omega
    simp only [windowValue, h1, h2, and_self, if_true, List.getD_eq_getElem?_getD,
      List.getElem?_eq_getElem h3, Option.getD_some]
  · intro i h
    simp only [windowValue, h, if_false]

/-- C2, the example of the specification: `("p", 2, ["x","y"])` puts `"x"` in column 2
and `"y"` in column 3 and leaves the other columns empty, in both operations. -/
theorem offset_filter_record_witness :
    (2 : Int) ≠ -1 ∧ checkQueryField ["x", "y"] = .ok () ∧
    RemoveFilteredPolicy.deleteLine "p" 2 ["x", "y"] =
      .ok ⟨0, "p", "", "", "x", "y", "", "", "", ""⟩ ∧
    UpdateFilteredPolicies.fill "p" 2 ["x", "y"] =
      .ok ⟨0, "p", "", "", "x", "y", "", "", "", ""⟩ := by
  have h := offset_filter_record "p" 2 ["x", "y"] (by decide) rfl
  refine ⟨by decide, rfl, ?_, ?_⟩
  · rw [h.1]; rfl
  · rw [h.2.1, h.1]; rfl

/-- C5. With a `fieldIndex` other than -1, `RemoveFilteredPolicy` on field values
that are all empty (or absent) returns the error and leaves the table as it
was; and `checkQueryField` fails exactly when every value is empty. -/
theorem removeFiltered_rejects_all_empty (db : Table) (sec ptype : String) (fieldIndex : Int)
    (fieldValues : List String) (hidx : fieldIndex ≠ -1) :
    ((∀ v ∈ fieldValues, v = "") →
      RemoveFilteredPolicy db sec ptype fieldIndex fieldValues =
        (db, some (.error "the query field cannot all be empty string (\"\"), please check"))) ∧
    ((∃ err, checkQueryField fieldValues = .error err) ↔ ∀ v ∈ fieldValues, v = "") := by
  constructor
  · intro h
    have h1 := (checkQueryField_error_iff fieldValues).mpr h
    simp only [RemoveFilteredPolicy, RemoveFilteredPolicy.deleteLine, hidx, if_false, h1]
  · constructor
    · rintro ⟨err, he⟩ v hv
      by_contra hne
      have := (checkQueryField_ok_iff fieldValues).mpr ⟨v, hv, hne⟩
      rw [this] at he
      cases he
    · intro h
      exact ⟨_, (checkQueryField_error_iff fieldValues).mpr h⟩

/-- C5 at `removeFiltered("p", 0)` with no values and with two empty values, on a
table of two rules: the error is returned and both rows remain. -/
theorem removeFiltered_rejects_all_empty_witness :
    (0 : Int) ≠ -1 ∧
    RemoveFilteredPolicy [⟨1, "p", "a", "b", "", "", "", "", "", ""⟩,
        ⟨2, "p", "a", "c", "", "", "", "", "", ""⟩] "p" "p" 0 ["", ""] =
      ([⟨1, "p", "a", "b", "", "", "", "", "", ""⟩, ⟨2, "p", "a", "c", "", "", "", "", "", ""⟩],
        some (.error "the query field cannot all be empty string (\"\"), please check")) ∧
    RemoveFilteredPolicy [⟨1, "p", "a", "b", "", "", "", "", "", ""⟩,
        ⟨2, "p", "a", "c", "", "", "", "", "", ""⟩] "p" "p" 0 [] =
      ([⟨1, "p", "a", "b", "", "", "", "", "", ""⟩, ⟨2, "p", "a", "c", "", "", "", "", "", ""⟩],
        some (.error "the query field cannot all be empty string (\"\"), please check")) :=
  ⟨by decide,
    (removeFiltered_rejects_all_empty _ "p" "p" 0 ["", ""] (by decide)).1 (by simp),
    (removeFiltered_rejects_all_empty _ "p" "p" 0 [] (by decide)).1 (by simp)⟩

/-! ## Records and tuples -/

theorem dropTrailingEmpty_append_singleton (l : List String) (s : String) :
    dropTrailingEmpty (l ++ [s]) = if s = "" then dropTrailingEmpty l else l ++ [s] := by
  by_cases h : s = ""
  · simp [dropTrailingEmpty, h, List.dropWhile_cons]
  · simp [dropTrailingEmpty, h, List.dropWhile_cons]

theorem dropTrailingEmpty_eq_nil_iff (l : List String) :
    dropTrailingEmpty l = [] ↔ ∀ s ∈ l, s = "" := by
  induction l using List.reverseRecOn with
  | nil => simp [dropTrailingEmpty]
  | append_singleton l s ih =>
    rw [dropTrailingEmpty_append_singleton]
    by_cases h : s = ""
    · rw [if_pos h, ih]
      constructor
      · intro hl x hx
        rcases List.mem_append.mp hx with hx | hx
        · exact hl x hx
        · rw [List.mem_singleton.mp hx, h]
      · intro hl x hx
        exact hl x (List.mem_append_left _ hx)
    · rw [if_neg h]
      constructor
      · intro hl
        simp at hl
      · intro hl
        exact absurd (hl s (by simp)) h

/-- The tuple with its trailing empty strings dropped is what remains when the
empty tail is cut off: the dropped part is all empty and the kept part does not
end in an empty string. -/
theorem dropTrailingEmpty_spec (l : List String) :
    l = dropTrailingEmpty l ++ List.replicate (l.length - (dropTrailingEmpty l).length) "" ∧
    (dropTrailingEmpty l).getLast? ≠ some "" := by
  induction l using List.reverseRecOn with
  | nil => simp [dropTrailingEmpty]
  | append_singleton l s ih =>
    rw [dropTrailingEmpty_append_singleton]
    by_cases h : s = ""
    · subst h
      simp only [if_true]
      refine ⟨?_, ih.2⟩
      have hle : (dropTrailingEmpty l).length ≤ l.length := by
        have := congrArg List.length ih.1
        simp only [List.length_append, List.length_replicate] at this
        omega
      have e : (l ++ [""]).length - (dropTrailingEmpty l).length =
          (l.length - (dropTrailingEmpty l).length) + 1 := by
        simp only [List.length_append, List.length_singleton]
        omega
      rw [e, List.replicate_succ', ← List.append_assoc, ← ih.1]
    · simp [h]

theorem scan_spec (p : List String) (n : Nat) (hn : n < p.length) :
    (∃ k, loadPolicyLine.scan p n = .ok k ∧ p.take (k + 1) = dropTrailingEmpty (p.take (n + 1)) ∧
      dropTrailingEmpty (p.take (n + 1)) ≠ []) ∨
    (loadPolicyLine.scan p n = .error (.panic "index out of range [-1]") ∧
      ∀ s ∈ p.take (n + 1), s = "") := by
  induction n with
  | zero =>
    have h0 : p[0]? = some p[0] := List.getElem?_eq_getElem hn
    have ht : p.take 1 = [p[0]] := by
      cases p with
      | nil => simp at hn
      | cons a as => simp
    by_cases h : p[0] = ""
    · right
      simp [loadPolicyLine.scan, h0, h, ht]
    · left
      refine ⟨0, ?_, ?_, ?_⟩
      · simp [loadPolicyLine.scan, h0, h]
      · simp [ht, dropTrailingEmpty, h]
      · simp [ht, dropTrailingEmpty, h]
  | succ n ih =>
    have h0 : p[n + 1]? = some p[n + 1] := List.getElem?_eq_getElem hn
    have ht : p.take (n + 1 + 1) = p.take (n + 1) ++ [p[n + 1]] := by
      rw [List.take_succ, h0]; rfl
    by_cases h : p[n + 1] = ""
    · have hs : loadPolicyLine.scan p (n + 1) = loadPolicyLine.scan p n := by
        simp [loadPolicyLine.scan, h0, h]
      rw [hs, ht, dropTrailingEmpty_append_singleton, if_pos h]
      rcases ih (by omega) with ⟨k, h1, h2, h3⟩ | ⟨h1, h2⟩
      · exact Or.inl ⟨k, h1, h2, h3⟩
      · right
        refine ⟨h1, ?_⟩
        intro s hs
        rcases List.mem_append.mp hs with hs | hs
        · exact h2 s hs
        · simp only [List.mem_singleton] at hs
          rw [hs, h]
    · left
      refine ⟨n + 1, ?_, ?_, ?_⟩
      · simp [loadPolicyLine.scan, h0, h]
      · rw [ht, dropTrailingEmpty_append_singleton, if_neg h]
      · rw [ht, dropTrailingEmpty_append_singleton, if_neg h]
        exact List.append_ne_nil_of_right_ne_nil _ (List.cons_ne_nil _ _)

/-- The tuple `loadPolicyLine` hands to the sink: the nine strings without their
trailing empty ones when one of them is non-empty, and an index panic when all
nine are empty. -/
theorem loadPolicyLine_eq (r : CasbinRule) :
    loadPolicyLine r =
      if dropTrailingEmpty (r.Ptype :: r.fields) = [] then
        .error (.panic "index out of range [-1]")
      else .ok (dropTrailingEmpty (r.Ptype :: r.fields)) := by
  have h := scan_spec (r.Ptype :: r.fields) 8 (by simp [CasbinRule.fields])
  have ht : (r.Ptype :: r.fields).take (8 + 1) = r.Ptype :: r.fields := by
    simp [CasbinRule.fields]
  rw [ht] at h
  have hp : loadPolicyLine r =
      match loadPolicyLine.scan (r.Ptype :: r.fields) 8 with
      | .error e => .error e
      | .ok index => .ok ((r.Ptype :: r.fields).take (index + 1)) := rfl
  rw [hp]
  rcases h with ⟨k, h1, h2, h3⟩ | ⟨h1, h2⟩
  · rw [h1, if_neg h3]
    simp only [h2]
  · rw [h1, if_pos ((dropTrailingEmpty_eq_nil_iff _).mpr h2)]

/-- C3. For a record with some non-empty string among `Ptype`, `V0`..`V7`,
`loadPolicyLine` hands the sink the list `[Ptype, V0, ..., V7]` cut after its
last non-empty element: what is cut off is all empty strings, what is kept is a
front part of the list, unchanged, that ends in a non-empty string. -/
theorem loadPolicyLine_cuts_trailing_empty (r : CasbinRule)
    (h : ∃ s ∈ r.Ptype :: r.fields, s ≠ "") :
    ∃ t k, loadPolicyLine r = .ok t ∧ t = dropTrailingEmpty (r.Ptype :: r.fields) ∧
      r.Ptype :: r.fields = t ++ List.replicate k "" ∧
      t ≠ [] ∧ t.getLast? ≠ some "" := by
  have hne : dropTrailingEmpty (r.Ptype :: r.fields) ≠ [] := by
    intro h0
    obtain ⟨s, hs, hs'⟩ := h
    exact hs' ((dropTrailingEmpty_eq_nil_iff _).mp h0 s hs)
  have hs := dropTrailingEmpty_spec (r.Ptype :: r.fields)
  exact ⟨_, _, by rw [loadPolicyLine_eq, if_neg hne], rfl, hs.1, hne, hs.2⟩

/-- C3 on the record `("p", "a", "", "c")`: the interior empty field is kept and the
five trailing ones are dropped. -/
theorem loadPolicyLine_cuts_trailing_empty_witness :
    ∃ t k, loadPolicyLine ⟨7, "p", "a", "", "c", "", "", "", "", ""⟩ = .ok t ∧
      t = dropTrailingEmpty ["p", "a", "", "c", "", "", "", "", ""] ∧
      ["p", "a", "", "c", "", "", "", "", ""] = t ++ List.replicate k "" ∧
      t ≠ [] ∧ t.getLast? ≠ some "" :=
  loadPolicyLine_cuts_trailing_empty ⟨7, "p", "a", "", "c", "", "", "", "", ""⟩
    ⟨"p", by simp, by decide⟩

/-- The record `savePolicyLine` builds: id zero, the policy type, and in column `i`
the element `rule[i]` when the rule has one, the empty string otherwise;
elements of the rule from the ninth on are not stored. -/
theorem savePolicyLine_eq (ptype : String) (rule : List String) :
    savePolicyLine ptype rule =
      ⟨0, ptype, rule.getD 0 "", rule.getD 1 "", rule.getD 2 "", rule.getD 3 "", rule.getD 4 "",
        rule.getD 5 "", rule.getD 6 "", rule.getD 7 ""⟩ := by
  rcases rule with _ | ⟨a0, _ | ⟨a1, _ | ⟨a2, _ | ⟨a3, _ | ⟨a4, _ | ⟨a5, _ | ⟨a6, _ | ⟨a7, rest⟩⟩⟩⟩⟩⟩⟩⟩ <;>
    simp [savePolicyLine, getTableInstance]

/-- C4. The round trip fails on the tuple `[""]`: `fromTuple` gives the record with
all nine strings empty, and `loadPolicyLine` on that record scans past index 0
and panics, so `fromTuple(toTuple(fromTuple(t)))` has no value there. -/
theorem roundTrip_all_empty_panics :
    fromTuple [""] = .ok ⟨0, "", "", "", "", "", "", "", "", ""⟩ ∧
    loadPolicyLine ⟨0, "", "", "", "", "", "", "", "", ""⟩ =
      .error (.panic "index out of range [-1]") ∧
    roundTrip [""] = .error (.panic "index out of range [-1]") ∧
    roundTrip [""] ≠ fromTuple [""] := by
  refine ⟨rfl, rfl, rfl, ?_⟩
  intro h
  have h1 : roundTrip [""] = .error (.panic "index out of range [-1]") := rfl
  have h2 : fromTuple [""] = .ok ⟨0, "", "", "", "", "", "", "", "", ""⟩ := rfl
  rw [h1, h2] at h
  cases h

/-! ## Filtered removal and filtered update on the store -/

/-- C6. The filter check does not keep an all-wildcard record from the delete:
for `fieldIndex = 8` and `fieldValues = ["x"]` the check passes, no column of
0..7 lies in the window, the record has only `Ptype` set, the predicate is
`ptype = ?` alone and every row of policy type `p` is deleted. -/
theorem removeFiltered_wildcard_reaches_delete :
    checkQueryField ["x"] = .ok () ∧
    RemoveFilteredPolicy.deleteLine "p" 8 ["x"] = .ok ⟨0, "p", "", "", "", "", "", "", "", ""⟩ ∧
    rawDeleteQuery ⟨0, "p", "", "", "", "", "", "", "", ""⟩ = ("ptype = ?", ["p"]) ∧
    RemoveFilteredPolicy (twoRules ++ [⟨3, "g", "alice", "admin", "", "", "", "", "", ""⟩])
        "p" "p" 8 ["x"] =
      ([⟨3, "g", "alice", "admin", "", "", "", "", "", ""⟩], none) ∧
    RemoveFilteredPolicy.deleteLine "p" 0 ["", "", "", "", "", "", "", "", "x"] =
      .ok ⟨0, "p", "", "", "", "", "", "", "", ""⟩ :=
  ⟨rfl, rfl, rfl, rfl, rfl⟩

/-- C7. `UpdateFilteredPolicies` does not reject an all-wildcard filter: with no
field values (or only empty ones) and one new rule on the two-rule store it
returns no error, deletes both rows and inserts the new one, where
`RemoveFilteredPolicy` with the same filter returns the error and deletes nothing. -/
theorem updateFiltered_accepts_all_empty :
    UpdateFilteredPolicies twoRules "p" "p" [["z", "w"]] 0 [] =
      ([⟨1, "p", "z", "w", "", "", "", "", "", ""⟩], .ok [["p", "a", "b"], ["p", "a", "c"]]) ∧
    UpdateFilteredPolicies twoRules "p" "p" [["z", "w"]] 0 ["", ""] =
      ([⟨1, "p", "z", "w", "", "", "", "", "", ""⟩], .ok [["p", "a", "b"], ["p", "a", "c"]]) ∧
    RemoveFilteredPolicy twoRules "p" "p" 0 [] =
      (twoRules,
        some (.error "the query field cannot all be empty string (\"\"), please check")) :=
  ⟨rfl, rfl, rfl⟩

/-- C8 as stated fails: with `fieldIndex = 1` the filter is `v1 = "a"`, which neither
stored rule satisfies (their `V1` is `"b"` and `"c"`), so nothing is removed,
the new rule is added as a third row and the removed set is empty. -/
theorem updateFiltered_example_index_one :
    UpdateFilteredPolicies.fill "p" 1 ["a"] = .ok ⟨0, "p", "", "a", "", "", "", "", "", ""⟩ ∧
    UpdateFilteredPolicies twoRules "p" "p" [["z", "w"]] 1 ["a"] =
      (twoRules ++ [⟨3, "p", "z", "w", "", "", "", "", "", ""⟩], .ok []) ∧
    (UpdateFilteredPolicies twoRules "p" "p" [["z", "w"]] 1 ["a"]).2 ≠
      .ok [["p", "a", "b"], ["p", "a", "c"]] := by
  refine ⟨rfl, rfl, ?_⟩
  intro h
  have h1 : (UpdateFilteredPolicies twoRules "p" "p" [["z", "w"]] 1 ["a"]).2 = .ok [] := rfl
  rw [h1] at h
  cases h

/-- C9. With two new rules that satisfy the filter themselves, the returned set is
the row inserted by the first iteration, not the two rules that matched before
the call: the select of the second iteration overwrites `oldP`. -/
theorem updateFiltered_reports_last_select :
    (UpdateFilteredPolicies twoRules "p" "p" [["a", "x"], ["a", "y"]] 0 ["a"]).2 =
      .ok [["p", "a", "x"]] ∧
    dbFind twoRules (CasbinRule.queryString ⟨0, "p", "a", "", "", "", "", "", "", ""⟩).1
        (CasbinRule.queryString ⟨0, "p", "a", "", "", "", "", "", "", ""⟩).2 = .ok twoRules ∧
    (UpdateFilteredPolicies twoRules "p" "p" [["q", "x"], ["q", "y"]] 0 ["a"]).2 = .ok [] :=
  ⟨rfl, rfl, rfl⟩

/-- C10. With two new rules that satisfy the filter themselves, the first new rule
is deleted again by the second iteration: only the last new rule is in the
store after the successful call. -/
theorem updateFiltered_drops_earlier_new_rules :
    (UpdateFilteredPolicies twoRules "p" "p" [["a", "x"], ["a", "y"]] 0 ["a"]).1 =
      [⟨1, "p", "a", "y", "", "", "", "", "", ""⟩] ∧
    savePolicyLine "p" ["a", "x"] = ⟨0, "p", "a", "x", "", "", "", "", "", ""⟩ ∧
    ((UpdateFilteredPolicies twoRules "p" "p" [["a", "x"], ["a", "y"]] 0 ["a"]).1.any
      (sameTuple (savePolicyLine "p" ["a", "x"]))) = false ∧
    twoRules.any (sameTuple (savePolicyLine "p" ["a", "x"])) = false ∧
    twoRules.any (sameTuple (savePolicyLine "p" ["a", "y"])) = false :=
  ⟨rfl, rfl, rfl, rfl, rfl⟩

/-! ## Filtered update with a single new rule -/

theorem savePolicyLine_ID (ptype : String) (rule : List String) :
    (savePolicyLine ptype rule).ID = 0 := by
  rw [savePolicyLine_eq]

/-- One iteration of the loop of `UpdateFilteredPolicies` on the transaction's
table: the rows matching the record are selected and deleted, then the new
record is inserted under the unique index. -/
theorem UpdateFilteredPolicies.loop_cons (line newLine : CasbinRule) (rest : List CasbinRule)
    (tx : Table) (oldP : List CasbinRule) :
    UpdateFilteredPolicies.loop line (newLine :: rest) tx oldP =
      match dbCreate (tx.filter (fun row => !line.matchesLine row)) newLine with
      | .error err => .error err
      | .ok tx' => UpdateFilteredPolicies.loop line rest tx' (tx.filter line.matchesLine) := by
  rw [UpdateFilteredPolicies.loop, dbFind_queryString, dbDelete_queryString]
  simp only [ok_bind]
  cases dbCreate (tx.filter (fun row => !line.matchesLine row)) newLine <;> rfl

/-- With a single new rule, a filtered update that passes the unique index
deletes the rows matching the filter record, appends the new record and
returns the deleted rows in table order; otherwise the table is left as it was. -/
theorem UpdateFilteredPolicies_single (db : Table) (sec ptype : String) (rule : List String)
    (fieldIndex : Int) (fieldValues : List String) (line : CasbinRule)
    (hline : UpdateFilteredPolicies.fill ptype fieldIndex fieldValues = .ok line) :
    UpdateFilteredPolicies db sec ptype [rule] fieldIndex fieldValues =
      if (db.filter (fun row => !line.matchesLine row)).any (sameTuple (savePolicyLine ptype rule))
      then (db, .error (.error "UNIQUE constraint failed"))
      else
        ((db.filter (fun row => !line.matchesLine row)) ++
            [{ savePolicyLine ptype rule with
                ID := nextID (db.filter (fun row => !line.matchesLine row)) }],
          .ok ((db.filter line.matchesLine).map CasbinRule.toStringPolicy)) := by
  simp only [UpdateFilteredPolicies, hline, List.map_cons, List.map_nil,
    UpdateFilteredPolicies.loop_cons, dbCreate, savePolicyLine_ID, if_true]
  split_ifs with h
  · rfl
  · rfl

/-- C8, amended. On a store holding exactly the rules `("p","a","b")` and
`("p","a","c")`, whatever their ids, the filtered update with `ptype = "p"`,
the new rule given by its fields `["z","w"]` and `fieldValues = ["a"]`:
with `fieldIndex = 0` removes both rows, inserts `("p","z","w")` once as the only
rule left and returns the two removed rules; with `fieldIndex = 1` removes
nothing, appends the new rule and returns the empty set. -/
theorem updateFiltered_example (id1 id2 : Nat) :
    UpdateFilteredPolicies [⟨id1, "p", "a", "b", "", "", "", "", "", ""⟩,
        ⟨id2, "p", "a", "c", "", "", "", "", "", ""⟩] "p" "p" [["z", "w"]] 0 ["a"] =
      ([⟨1, "p", "z", "w", "", "", "", "", "", ""⟩],
        .ok [["p", "a", "b"], ["p", "a", "c"]]) ∧
    UpdateFilteredPolicies [⟨id1, "p", "a", "b", "", "", "", "", "", ""⟩,
        ⟨id2, "p", "a", "c", "", "", "", "", "", ""⟩] "p" "p" [["z", "w"]] 1 ["a"] =
      ([⟨id1, "p", "a", "b", "", "", "", "", "", ""⟩, ⟨id2, "p", "a", "c", "", "", "", "", "", ""⟩,
          ⟨max id1 (max id2 0) + 1, "p", "z", "w", "", "", "", "", "", ""⟩], .ok []) := by
  constructor
  · rw [UpdateFilteredPolicies_single _ "p" "p" ["z", "w"] 0 ["a"]
      ⟨0, "p", "a", "", "", "", "", "", "", ""⟩ rfl]
    simp [CasbinRule.matchesLine, savePolicyLine_eq, nextID, CasbinRule.toStringPolicy]
  · rw [UpdateFilteredPolicies_single _ "p" "p" ["z", "w"] 1 ["a"]
      ⟨0, "p", "", "a", "", "", "", "", "", ""⟩ rfl]
    simp [CasbinRule.matchesLine, savePolicyLine_eq, nextID, sameTuple]

/-! ## The round trip away from the all-empty tuple -/

theorem getD_append_replicate_empty (l : List String) (k i : Nat) :
    (l ++ List.replicate k "").getD i "" = l.getD i "" := by
  simp only [List.getD_eq_getElem?_getD]
  by_cases h : i < l.length
  · rw [List.getElem?_append_left h]
  · have h' : l.length ≤ i := by omega
    rw [List.getElem?_append_right h', List.getElem?_eq_none h']
    by_cases h2 : i - l.length < k
    · simp [List.getElem?_replicate, h2]
    · simp [List.getElem?_replicate, h2]

/-- Reading a record back from its own tuple gives the record again, for a record
with id zero and some non-empty string. -/
theorem fromTuple_dropTrailingEmpty (r : CasbinRule) (hid : r.ID = 0)
    (hne : dropTrailingEmpty (r.Ptype :: r.fields) ≠ []) :
    fromTuple (dropTrailingEmpty (r.Ptype :: r.fields)) = .ok r := by
  have hs := (dropTrailingEmpty_spec (r.Ptype :: r.fields)).1
  generalize (r.Ptype :: r.fields).length - (dropTrailingEmpty (r.Ptype :: r.fields)).length = k
    at hs
  cases ht : dropTrailingEmpty (r.Ptype :: r.fields) with
  | nil => exact absurd ht hne
  | cons p rest =>
    rw [ht] at hs
    simp only [List.cons_append, List.cons.injEq] at hs
    obtain ⟨hp, hf⟩ := hs
    have hv : ∀ i, r.fields.getD i "" = rest.getD i "" := by
      intro i
      rw [hf, getD_append_replicate_empty]
    have h0 := hv 0
    have h1 := hv 1
    have h2 := hv 2
    have h3 := hv 3
    have h4 := hv 4
    have h5 := hv 5
    have h6 := hv 6
    have h7 := hv 7
    simp only [CasbinRule.fields, List.getD_cons_zero, List.getD_cons_succ] at h0 h1 h2 h3 h4 h5 h6 h7
    simp only [fromTuple, savePolicyLine_eq, ← h0, ← h1, ← h2, ← h3, ← h4, ← h5, ← h6, ← h7, ← hp]
    rw [← hid]

/-- The round trip holds for every tuple with a non-empty string among its first
nine elements: the only tuples it fails on are those the scan of
`loadPolicyLine` panics on. -/
theorem roundTrip_eq_fromTuple (t : List String) (h : ∃ s ∈ t.take 9, s ≠ "") :
    roundTrip t = fromTuple t := by
  cases t with
  | nil => simp at h
  | cons p rule =>
    have hne : dropTrailingEmpty ((savePolicyLine p rule).Ptype :: (savePolicyLine p rule).fields)
        ≠ [] := by
      intro h0
      have hall := (dropTrailingEmpty_eq_nil_iff _).mp h0
      obtain ⟨s, hs, hs'⟩ := h
      apply hs'
      apply hall
      rw [savePolicyLine_eq]
      simp only [List.take_succ_cons, List.mem_cons] at hs
      rcases hs with hs | hs
      · exact List.mem_cons.mpr (Or.inl hs)
      · obtain ⟨i, hi⟩ := List.mem_iff_getElem?.mp hs
        have hi8 : i < 8 := by
          by_contra hge
          rw [List.getElem?_take_eq_none (by omega)] at hi
          cases hi
        rw [List.getElem?_take_of_lt hi8] at hi
        have hd : rule.getD i "" = s := by
          rw [List.getD_eq_getElem?_getD, hi, Option.getD_some]
        rw [← hd]
        interval_cases i <;> simp [CasbinRule.fields]
    have hl := loadPolicyLine_eq (savePolicyLine p rule)
    rw [if_neg hne] at hl
    have hf := fromTuple_dropTrailingEmpty (savePolicyLine p rule) (savePolicyLine_ID p rule) hne
    simp only [roundTrip, fromTuple, ok_bind, hl]
    exact hf

/-! ## Which filters constrain the delete -/

/-- A non-empty field value that the window addresses to one of the columns 0..7
does reach the record: the record `RemoveFilteredPolicy` deletes by then has a
non-empty field. -/
theorem RemoveFilteredPolicy.deleteLine_constrains (ptype : String) (fieldIndex : Int)
    (fieldValues : List String) (hidx : fieldIndex ≠ -1) (j : Nat) (hj : j < fieldValues.length)
    (hv : fieldValues[j] ≠ "") (hlo : 0 ≤ fieldIndex + j) (hhi : fieldIndex + j ≤ 7) :
    ∃ line, RemoveFilteredPolicy.deleteLine ptype fieldIndex fieldValues = .ok line ∧
      ∃ v ∈ line.fields, v ≠ "" := by
  have hok : checkQueryField fieldValues = .ok () :=
    (checkQueryField_ok_iff fieldValues).mpr ⟨_, List.getElem_mem hj, hv⟩
  refine ⟨_, (RemoveFilteredPolicy.deleteLine_eq ptype fieldIndex fieldValues hidx hok).trans
    (UpdateFilteredPolicies.fill_eq ptype fieldIndex fieldValues), ?_⟩
  have hw : windowValue fieldIndex fieldValues (fieldIndex + j) = fieldValues[j] := by
    have h1 : fieldIndex ≤ fieldIndex + (j : Int) := by omega
    have h2 : fieldIndex + (j : Int) < fieldIndex + fieldValues.length := by omega
    have h3 : (fieldIndex + (j : Int) - fieldIndex).toNat = j := by omega
    simp only [windowValue, h1, h2, and_self, if_true, h3, List.getD_eq_getElem?_getD,
      List.getElem?_eq_getElem hj, Option.getD_some]
  refine ⟨fieldValues[j], ?_, hv⟩
  rw [← hw]
  have hc : fieldIndex + (j : Int) = 0 ∨ fieldIndex + (j : Int) = 1 ∨ fieldIndex + (j : Int) = 2 ∨
      fieldIndex + (j : Int) = 3 ∨ fieldIndex + (j : Int) = 4 ∨ fieldIndex + (j : Int) = 5 ∨
      fieldIndex + (j : Int) = 6 ∨ fieldIndex + (j : Int) = 7 := by omega
  rcases hc with h | h | h | h | h | h | h | h <;> rw [h] <;> simp [CasbinRule.fields]

/-! ## Filtered update with two or more new rules -/

theorem dbCreate_ok (t t' : Table) (line : CasbinRule) (h : dbCreate t line = .ok t') :
    ∃ id, t' = t ++ [{ line with ID := id }] := by
  unfold dbCreate at h
  split_ifs at h with h1 h2 h3
  · cases h; exact ⟨_, rfl⟩
  · cases h; exact ⟨line.ID, rfl⟩

theorem matchesLine_withID (line row : CasbinRule) (id : Nat) :
    line.matchesLine { row with ID := id } = line.matchesLine row := rfl

theorem toStringPolicy_withID (row : CasbinRule) (id : Nat) :
    CasbinRule.toStringPolicy { row with ID := id } = row.toStringPolicy := rfl

theorem filter_matches_kept (line : CasbinRule) (t : Table) :
    (t.filter (fun row => !line.matchesLine row)).filter line.matchesLine = [] := by
  rw [List.filter_filter, List.filter_eq_nil_iff]
  intro a _
  simp

/-- What the loop leaves in `oldP` when it runs for two or more new records and
succeeds: the select of the last iteration, which can only find the record
inserted just before it. -/
theorem UpdateFilteredPolicies.loop_oldP (line a b : CasbinRule) (pre : List CasbinRule)
    (tx : Table) (oldP : List CasbinRule) (tx' : Table) (res : List CasbinRule)
    (h : UpdateFilteredPolicies.loop line (pre ++ [a, b]) tx oldP = .ok (tx', res)) :
    res.map CasbinRule.toStringPolicy =
      if line.matchesLine a then [a.toStringPolicy] else [] := by
  induction pre generalizing tx oldP with
  | nil =>
    simp only [List.nil_append] at h
    rw [UpdateFilteredPolicies.loop_cons] at h
    cases h1 : dbCreate (tx.filter (fun row => !line.matchesLine row)) a with
    | error e => rw [h1] at h; cases h
    | ok tx1 =>
      rw [h1] at h
      simp only at h
      rw [UpdateFilteredPolicies.loop_cons] at h
      cases h2 : dbCreate (tx1.filter (fun row => !line.matchesLine row)) b with
      | error e => rw [h2] at h; cases h
      | ok tx2 =>
        rw [h2] at h
        simp only [UpdateFilteredPolicies.loop, Except.ok.injEq, Prod.mk.injEq] at h
        obtain ⟨id, hid⟩ := dbCreate_ok _ _ _ h1
        rw [← h.2, hid, List.filter_append, filter_matches_kept, List.nil_append]
        by_cases hm : line.matchesLine a = true
        · simp only [List.filter_cons, matchesLine_withID, hm, if_true, List.filter_nil,
            List.map_cons, List.map_nil, toStringPolicy_withID]
        · simp only [List.filter_cons, matchesLine_withID, hm, if_false, List.filter_nil,
            List.map_nil, Bool.false_eq_true]
  | cons x pre ih =>
    simp only [List.cons_append] at h
    rw [UpdateFilteredPolicies.loop_cons] at h
    cases h1 : dbCreate (tx.filter (fun row => !line.matchesLine row)) x with
    | error e => rw [h1] at h; cases h
    | ok tx1 =>
      rw [h1] at h
      exact ih _ _ h

/-- What a successful filtered update with two or more new rules returns: the
second-to-last new rule when it satisfies the filter record, and nothing
otherwise; the rows that matched before the call are not reported. -/
theorem UpdateFilteredPolicies_removed_of_two (db : Table) (sec ptype : String)
    (pre : List (List String)) (a b : List String) (fieldIndex : Int)
    (fieldValues : List String) (line : CasbinRule) (db' : Table) (removed : List (List String))
    (hline : UpdateFilteredPolicies.fill ptype fieldIndex fieldValues = .ok line)
    (h : UpdateFilteredPolicies db sec ptype (pre ++ [a, b]) fieldIndex fieldValues =
      (db', .ok removed)) :
    removed = if line.matchesLine (savePolicyLine ptype a) then
      [(savePolicyLine ptype a).toStringPolicy] else [] := by
  simp only [UpdateFilteredPolicies, hline, List.map_append, List.map_cons, List.map_nil] at h
  cases hl : UpdateFilteredPolicies.loop line
      (pre.map (savePolicyLine ptype) ++ [savePolicyLine ptype a, savePolicyLine ptype b]) db [] with
  | error e => rw [hl] at h; cases h
  | ok res =>
    obtain ⟨tx, oldP⟩ := res
    rw [hl] at h
    simp only [Prod.mk.injEq, Except.ok.injEq] at h
    rw [← h.2]
    exact UpdateFilteredPolicies.loop_oldP line _ _ _ db [] tx oldP hl

theorem sameTuple_withID (row : CasbinRule) (id : Nat) :
    sameTuple row { row with ID := id } = true := by
  simp [sameTuple]

/-- The table the loop ends with after a successful run over one or more new
records: some table with the matching rows deleted, followed by the last new
record. -/
theorem UpdateFilteredPolicies.loop_table (line b : CasbinRule) (pre : List CasbinRule)
    (tx : Table) (oldP : List CasbinRule) (tx' : Table) (res : List CasbinRule)
    (h : UpdateFilteredPolicies.loop line (pre ++ [b]) tx oldP = .ok (tx', res)) :
    ∃ (t : Table) (id : Nat),
      tx' = t.filter (fun row => !line.matchesLine row) ++ [{ b with ID := id }] := by
  induction pre generalizing tx oldP with
  | nil =>
    simp only [List.nil_append] at h
    rw [UpdateFilteredPolicies.loop_cons] at h
    cases h1 : dbCreate (tx.filter (fun row => !line.matchesLine row)) b with
    | error e => rw [h1] at h; cases h
    | ok tx1 =>
      rw [h1] at h
      simp only [UpdateFilteredPolicies.loop, Except.ok.injEq, Prod.mk.injEq] at h
      obtain ⟨id, hid⟩ := dbCreate_ok _ _ _ h1
      exact ⟨tx, id, by rw [← h.1, hid]⟩
  | cons x pre ih =>
    simp only [List.cons_append] at h
    rw [UpdateFilteredPolicies.loop_cons] at h
    cases h1 : dbCreate (tx.filter (fun row => !line.matchesLine row)) x with
    | error e => rw [h1] at h; cases h
    | ok tx1 =>
      rw [h1] at h
      exact ih _ _ h

/-- After a successful filtered update with at least one new rule, the only row of
the table that can satisfy the filter record is the last new rule: every new
rule inserted before it that satisfies the filter has been deleted again. -/
theorem UpdateFilteredPolicies_final_matching (db : Table) (sec ptype : String)
    (pre : List (List String)) (b : List String) (fieldIndex : Int)
    (fieldValues : List String) (line : CasbinRule) (db' : Table) (removed : List (List String))
    (hline : UpdateFilteredPolicies.fill ptype fieldIndex fieldValues = .ok line)
    (h : UpdateFilteredPolicies db sec ptype (pre ++ [b]) fieldIndex fieldValues =
      (db', .ok removed)) :
    ∀ row ∈ db', line.matchesLine row = true → sameTuple (savePolicyLine ptype b) row = true := by
  simp only [UpdateFilteredPolicies, hline, List.map_append, List.map_cons, List.map_nil] at h
  cases hl : UpdateFilteredPolicies.loop line
      (pre.map (savePolicyLine ptype) ++ [savePolicyLine ptype b]) db [] with
  | error e => rw [hl] at h; cases h
  | ok res =>
    obtain ⟨tx, oldP⟩ := res
    rw [hl] at h
    simp only [Prod.mk.injEq, Except.ok.injEq] at h
    obtain ⟨t, id, ht⟩ := UpdateFilteredPolicies.loop_table line _ _ db [] tx oldP hl
    intro row hrow hm
    rw [← h.1, ht] at hrow
    rcases List.mem_append.mp hrow with hr | hr
    · have := (List.mem_filter.mp hr).2
      rw [hm] at this
      cases this
    · rw [List.mem_singleton.mp hr]
      exact sameTuple_withID _ _

/-! ## Removal by policy type and by tuple -/

/-- C12. With `fieldIndex = -1`, whatever the field values, `RemoveFilteredPolicy`
runs neither the all-empty check nor the fill: it deletes by the record that has
only `Ptype` set, the predicate is `ptype = ?` with the single argument `ptype`,
no error is returned, every row of that policy type is removed and every other
row stays, in place. -/
theorem removeFiltered_by_ptype (db : Table) (sec ptype : String) (fieldValues : List String) :
    RemoveFilteredPolicy.deleteLine ptype (-1) fieldValues =
      .ok ⟨0, ptype, "", "", "", "", "", "", "", ""⟩ ∧
    rawDeleteQuery ⟨0, ptype, "", "", "", "", "", "", "", ""⟩ = ("ptype = ?", [ptype]) ∧
    RemoveFilteredPolicy db sec ptype (-1) fieldValues =
      (db.filter (fun r => r.Ptype != ptype), none) ∧
    (∀ r, r ∈ (RemoveFilteredPolicy db sec ptype (-1) fieldValues).1 ↔
      r ∈ db ∧ r.Ptype ≠ ptype) := by
  have h1 : RemoveFilteredPolicy.deleteLine ptype (-1) fieldValues =
      .ok ⟨0, ptype, "", "", "", "", "", "", "", ""⟩ := rfl
  have h3 : RemoveFilteredPolicy db sec ptype (-1) fieldValues =
      (db.filter (fun r => r.Ptype != ptype), none) := by
    simp only [RemoveFilteredPolicy, h1, rawDelete_eq]
    congr 2
    funext r
    simp [CasbinRule.matchesLine, bne]
  refine ⟨h1, rfl, h3, ?_⟩
  intro r
  rw [h3]
  simp [List.mem_filter]

theorem getElem?_select_eq (rest : List String) (i : Nat) (x : String) :
    (match rest[i]? with
      | some v => v == "" || some x == some v
      | none => true) = (rest.getD i "" == "" || x == rest.getD i "") := by
  rw [List.getD_eq_getElem?_getD]
  cases rest[i]? with
  | none => simp
  | some v => simp

theorem matchesLine_savePolicyLine (p : String) (rest : List String) (r : CasbinRule) :
    (savePolicyLine p rest).matchesLine r = removeRuleSelects (p :: rest) r := by
  have hr : List.range 8 = [0, 1, 2, 3, 4, 5, 6, 7] := by decide
  simp only [removeRuleSelects, hr, List.all_cons, List.all_nil, List.getElem?_cons_succ,
    List.getElem?_cons_zero, CasbinRule.fields, List.getElem?_cons_zero, getElem?_select_eq,
    savePolicyLine_eq, CasbinRule.matchesLine, Bool.and_true, Bool.and_assoc]
  congr 1
  simp only [Option.some_beq_some]
  exact Bool.beq_comm

/-- C13. For a non-empty tuple `t`, `RemoveRule` returns no error and deletes
exactly the rows whose policy type is `t[0]` and whose column `i` holds `t[i+1]`
wherever that element exists and is non-empty; the rows that remain are the
other rows of the table, in their order. -/
theorem removeRule_deletes_selected (db : Table) (t : List String) (ht : t ≠ []) :
    RemoveRule db t = (db.filter (fun r => !removeRuleSelects t r), none) ∧
    (∀ r, r ∈ (RemoveRule db t).1 ↔ r ∈ db ∧ removeRuleSelects t r = false) ∧
    (RemoveRule db t).1.Sublist db := by
  cases t with
  | nil => exact absurd rfl ht
  | cons p rest =>
    have h : RemoveRule db (p :: rest) =
        (db.filter (fun r => !removeRuleSelects (p :: rest) r), none) := by
      simp only [RemoveRule, fromTuple, rawDelete_eq, matchesLine_savePolicyLine]
    refine ⟨h, ?_, ?_⟩
    · intro r
      rw [h]
      simp [List.mem_filter]
    · rw [h]
      exact List.filter_sublist _

/-- C13 on the tuple `("p","a")` and a table of three rules: both rules with
`V0 = "a"` go, whatever their `V1`, and the rule of another policy type stays. -/
theorem removeRule_deletes_selected_witness :
    RemoveRule (twoRules ++ [⟨3, "g", "a", "", "", "", "", "", "", ""⟩]) ["p", "a"] =
      ([⟨3, "g", "a", "", "", "", "", "", "", ""⟩], none) ∧
    (["p", "a"] : List String) ≠ [] := by
  have h := (removeRule_deletes_selected (twoRules ++ [⟨3, "g", "a", "", "", "", "", "", "", ""⟩])
    ["p", "a"] (by simp)).1
  exact ⟨h.trans rfl, by simp⟩

/-! ## The tuple of a record: `loadPolicyLine` and `toStringPolicy` -/

/-- C17. `loadPolicyLine` does not complete on the record whose `Ptype` and eight
fields are all empty: the scan passes index 0 and the test `p[-1]` panics, so no
tuple, and in particular not `[""]`, reaches the sink. -/
theorem loadPolicyLine_all_empty_panics (id : Nat) :
    loadPolicyLine ⟨id, "", "", "", "", "", "", "", "", ""⟩ =
      .error (.panic "index out of range [-1]") ∧
    loadPolicyLine.scan ["", "", "", "", "", "", "", "", ""] 8 =
      .error (.panic "index out of range [-1]") :=
  ⟨rfl, rfl⟩

/-- On every other record `loadPolicyLine` completes, and the tuple starts with
`Ptype`, empty or not. -/
theorem loadPolicyLine_head (r : CasbinRule) (h : ∃ s ∈ r.Ptype :: r.fields, s ≠ "") :
    ∃ t, loadPolicyLine r = .ok t ∧ t.head? = some r.Ptype ∧ 1 ≤ t.length := by
  have hne : dropTrailingEmpty (r.Ptype :: r.fields) ≠ [] := by
    intro h0
    obtain ⟨s, hs, hs'⟩ := h
    exact hs' ((dropTrailingEmpty_eq_nil_iff _).mp h0 s hs)
  have hs := (dropTrailingEmpty_spec (r.Ptype :: r.fields)).1
  refine ⟨_, by rw [loadPolicyLine_eq, if_neg hne], ?_, ?_⟩
  · cases ht : dropTrailingEmpty (r.Ptype :: r.fields) with
    | nil => exact absurd ht hne
    | cons a as =>
      rw [ht] at hs
      simp only [List.cons_append, List.cons.injEq] at hs
      simp [hs.1]
  · cases ht : dropTrailingEmpty (r.Ptype :: r.fields) with
    | nil => exact absurd ht hne
    | cons a as => simp

theorem foldl_keep_nonempty (l acc : List String) :
    l.foldl (fun policy s => if s != "" then policy ++ [s] else policy) acc =
      acc ++ l.filter (fun s => s != "") := by
  induction l generalizing acc with
  | nil => simp
  | cons s l ih =>
    rw [List.foldl_cons, ih]
    by_cases h : s = ""
    · simp [h]
    · simp [h, List.filter_cons]

/-- The tuple `toStringPolicy` builds: the nine strings of the record with every
empty one left out, wherever it stands. -/
theorem toStringPolicy_eq_filter (r : CasbinRule) :
    r.toStringPolicy = (r.Ptype :: r.fields).filter (fun s => s != "") := by
  have h : r.toStringPolicy =
      (r.Ptype :: r.fields).foldl (fun policy s => if s != "" then policy ++ [s] else policy) [] :=
    rfl
  rw [h, foldl_keep_nonempty, List.nil_append]

/-- C19. The removed rules are not reported by the conversion of loading: on the
record `("p","a","","c")` the method `toStringPolicy` leaves the interior empty
field out, where `loadPolicyLine` keeps it, and it leaves an empty `Ptype` out
too.  So a filtered update on a table holding `("p","a","","c")` and
`("p","a","c")` reports `("p","a","c")` twice, and on a table holding only
`("p","a","","c")` it reports `("p","a","c")`, a rule that was never stored. -/
theorem toStringPolicy_drops_interior_empty :
    CasbinRule.toStringPolicy ⟨1, "p", "a", "", "c", "", "", "", "", ""⟩ = ["p", "a", "c"] ∧
    loadPolicyLine ⟨1, "p", "a", "", "c", "", "", "", "", ""⟩ = .ok ["p", "a", "", "c"] ∧
    loadPolicyLine ⟨1, "p", "a", "", "c", "", "", "", "", ""⟩ ≠
      .ok (CasbinRule.toStringPolicy ⟨1, "p", "a", "", "c", "", "", "", "", ""⟩) ∧
    CasbinRule.toStringPolicy ⟨1, "", "a", "b", "", "", "", "", "", ""⟩ = ["a", "b"] ∧
    loadPolicyLine ⟨1, "", "a", "b", "", "", "", "", "", ""⟩ = .ok ["", "a", "b"] ∧
    (UpdateFilteredPolicies [⟨1, "p", "a", "", "c", "", "", "", "", ""⟩] "p" "p" [["z", "w"]] 0
      ["a"]).2 = .ok [["p", "a", "c"]] ∧
    (UpdateFilteredPolicies [⟨1, "p", "a", "", "c", "", "", "", "", ""⟩,
        ⟨2, "p", "a", "c", "", "", "", "", "", ""⟩] "p" "p" [["z", "w"]] 0 ["a"]).2 =
      .ok [["p", "a", "c"], ["p", "a", "c"]] := by
  refine ⟨rfl, rfl, ?_, rfl, rfl, rfl, rfl⟩
  intro h
  have h1 : loadPolicyLine ⟨1, "p", "a", "", "c", "", "", "", "", ""⟩ =
      .ok ["p", "a", "", "c"] := rfl
  have h2 : CasbinRule.toStringPolicy ⟨1, "p", "a", "", "c", "", "", "", "", ""⟩ =
      ["p", "a", "c"] := rfl
  rw [h1, h2] at h
  simp at h

theorem filter_nonempty_append_replicate (l : List String) (k : Nat) :
    (l ++ List.replicate k "").filter (fun s => s != "") = l.filter (fun s => s != "") := by
  rw [List.filter_append]
  have : (List.replicate k "").filter (fun s => s != "") = [] := by
    rw [List.filter_eq_nil_iff]
    intro a ha
    rw [(List.mem_replicate.mp ha).2]
    decide
  rw [this, List.append_nil]

/-- Where the two conversions agree: for every record, `toStringPolicy` is the list
`[Ptype, V0, ..., V7]` with every empty string dropped; it is the tuple
`loadPolicyLine` produces exactly when that tuple exists and holds no empty
string, that is when no empty string stands before the last non-empty one. -/
theorem toStringPolicy_vs_loadPolicyLine (r : CasbinRule) :
    r.toStringPolicy = (r.Ptype :: r.fields).filter (fun s => s != "") ∧
    (loadPolicyLine r = .ok r.toStringPolicy ↔
      dropTrailingEmpty (r.Ptype :: r.fields) ≠ [] ∧
        "" ∉ dropTrailingEmpty (r.Ptype :: r.fields)) := by
  refine ⟨toStringPolicy_eq_filter r, ?_⟩
  have hs := (dropTrailingEmpty_spec (r.Ptype :: r.fields)).1
  have hf : r.toStringPolicy =
      (dropTrailingEmpty (r.Ptype :: r.fields)).filter (fun s => s != "") := by
    rw [toStringPolicy_eq_filter]
    conv_lhs => rw [hs]
    rw [filter_nonempty_append_replicate]
  rw [loadPolicyLine_eq]
  by_cases hne : dropTrailingEmpty (r.Ptype :: r.fields) = []
  · rw [if_pos hne]
    simp [hne]
  · rw [if_neg hne, hf]
    simp only [Except.ok.injEq, ne_eq, hne, not_false_eq_true, true_and]
    constructor
    · intro h hmem
      have h' := h.symm
      rw [List.filter_eq_self] at h'
      have := h' "" hmem
      simp at this
    · intro h
      symm
      rw [List.filter_eq_self]
      intro a ha
      have : a ≠ "" := fun e => h (e ▸ ha)
      simpa using this

/-! ## A rule stored and loaded again -/

theorem dropTrailingEmpty_append_replicate (l : List String) (k : Nat) :
    dropTrailingEmpty (l ++ List.replicate k "") = dropTrailingEmpty l := by
  induction k with
  | zero => simp
  | succ k ih =>
    rw [List.replicate_succ', ← List.append_assoc, dropTrailingEmpty_append_singleton,
      if_pos rfl, ih]

theorem pad_eq_take_append (l : List String) :
    [l.getD 0 "", l.getD 1 "", l.getD 2 "", l.getD 3 "", l.getD 4 "", l.getD 5 "", l.getD 6 "",
        l.getD 7 ""] = l.take 8 ++ List.replicate (8 - (l.take 8).length) "" := by
  rcases l with _ | ⟨a0, _ | ⟨a1, _ | ⟨a2, _ | ⟨a3, _ | ⟨a4, _ | ⟨a5, _ | ⟨a6, _ | ⟨a7, rest⟩⟩⟩⟩⟩⟩⟩⟩ <;>
    simp [List.replicate]

theorem storeAndLoad_cons (p : String) (rule : List String) :
    storeAndLoad (p :: rule) =
      if dropTrailingEmpty ((p :: rule).take 9) = [] then
        .error (.panic "index out of range [-1]")
      else .ok (dropTrailingEmpty ((p :: rule).take 9)) := by
  have h : storeAndLoad (p :: rule) = loadPolicyLine (savePolicyLine p rule) := rfl
  have hf : (savePolicyLine p rule).Ptype :: (savePolicyLine p rule).fields =
      (p :: rule).take 9 ++ List.replicate (8 - (rule.take 8).length) "" := by
    rw [savePolicyLine_eq]
    simp only [CasbinRule.fields, List.take_succ_cons, List.cons_append, pad_eq_take_append]
  rw [h, loadPolicyLine_eq, hf, dropTrailingEmpty_append_replicate]

theorem getD_take_of_lt (l : List String) (n i : Nat) (h : i < n) :
    (l.take n).getD i "" = l.getD i "" := by
  rw [List.getD_eq_getElem?_getD, List.getD_eq_getElem?_getD, List.getElem?_take_of_lt h]

/-- C20. A tuple with a non-empty string among its first nine elements, stored by
`savePolicyLine(t[0], t[1:])` and loaded by `loadPolicyLine`, comes back as its
first nine elements without their trailing empty strings.  So a tuple of at most
nine elements ending in a non-empty string comes back unchanged, elements after
the ninth are dropped without an error, and tuples that differ only in trailing
empty strings give the same record. -/
theorem storeAndLoad_eq (t : List String) (h : ∃ s ∈ t.take 9, s ≠ "") :
    storeAndLoad t = .ok (dropTrailingEmpty (t.take 9)) ∧
    (t.length ≤ 9 → (∃ s, t.getLast? = some s ∧ s ≠ "") → storeAndLoad t = .ok t) ∧
    (∀ extra : List String, 9 ≤ t.length →
      fromTuple (t ++ extra) = fromTuple t ∧ storeAndLoad (t ++ extra) = storeAndLoad t) ∧
    (∀ k : Nat, fromTuple (t ++ List.replicate k "") = fromTuple t) := by
  cases t with
  | nil => simp at h
  | cons p rule =>
    have hne : dropTrailingEmpty ((p :: rule).take 9) ≠ [] := by
      intro h0
      obtain ⟨s, hs, hs'⟩ := h
      exact hs' ((dropTrailingEmpty_eq_nil_iff _).mp h0 s hs)
    have hmain : storeAndLoad (p :: rule) = .ok (dropTrailingEmpty ((p :: rule).take 9)) := by
      rw [storeAndLoad_cons, if_neg hne]
    refine ⟨hmain, ?_, ?_, ?_⟩
    · intro hlen hlast
      obtain ⟨s, hs, hs'⟩ := hlast
      rw [hmain, List.take_of_length_le hlen]
      obtain ⟨l, hl⟩ : ∃ l, p :: rule = l ++ [s] := by
        rcases List.eq_nil_or_concat (p :: rule) with h0 | ⟨l, b, hb⟩
        · cases h0
        · rw [hb] at hs
          simp only [List.concat_eq_append, List.getLast?_append, List.getLast?_singleton] at hs
          have hbs : b = s := by simpa [Option.or] using hs
          exact ⟨l, by rw [hb, List.concat_eq_append, hbs]⟩
      rw [hl, dropTrailingEmpty_append_singleton, if_neg hs']
    · intro extra hlen
      have h8 : 8 ≤ rule.length := by simpa using hlen
      have hg : ∀ i, i < 8 → (rule ++ extra).getD i "" = rule.getD i "" := by
        intro i hi
        rw [List.getD_eq_getElem?_getD, List.getD_eq_getElem?_getD,
          List.getElem?_append_left (by omega)]
      have hf : fromTuple (p :: rule ++ extra) = fromTuple (p :: rule) := by
        simp only [List.cons_append, fromTuple, savePolicyLine_eq]
        rw [hg 0 (by omega), hg 1 (by omega), hg 2 (by omega), hg 3 (by omega), hg 4 (by omega),
          hg 5 (by omega), hg 6 (by omega), hg 7 (by omega)]
      refine ⟨hf, ?_⟩
      simp only [storeAndLoad, hf]
    · intro k
      simp only [List.cons_append, fromTuple, savePolicyLine_eq, getD_append_replicate_empty]

/-- C20 on `("p","a","","c","")`: the tuple comes back as `("p","a","","c")`. -/
theorem storeAndLoad_eq_witness :
    storeAndLoad ["p", "a", "", "c", ""] = .ok ["p", "a", "", "c"] ∧
    storeAndLoad ["p", "a", "", "c"] = .ok ["p", "a", "", "c"] ∧
    fromTuple (["p", "a", "", "c"] ++ List.replicate 1 "") = fromTuple ["p", "a", "", "c"] := by
  have h := storeAndLoad_eq ["p", "a", "", "c", ""] ⟨"p", by simp, by decide⟩
  have h' := storeAndLoad_eq ["p", "a", "", "c"] ⟨"p", by simp, by decide⟩
  exact ⟨h.1.trans rfl, h'.2.1 (by simp) ⟨"c", rfl, by decide⟩, h'.2.2.2 1⟩

/-! ## The membership conditions of a filter -/

theorem filterQuery_eq_foldl (f : Filter) (db : Conditions) :
    filterQuery f db = (columnNames.zip f.lists).foldl addMembership db := rfl

theorem foldl_addMembership (l : List (String × List String)) (db : Conditions) :
    l.foldl addMembership db =
      db ++ (l.filter (fun cv => cv.2.length > 0)).map fun cv => (cv.1 ++ " in (?)", cv.2) := by
  induction l generalizing db with
  | nil => simp
  | cons cv l ih =>
    rw [List.foldl_cons, ih]
    by_cases h : cv.2.length > 0
    · simp [addMembership, h, List.filter_cons]
    · simp [addMembership, h, List.filter_cons]

theorem filterQuery_eq_spec (f : Filter) (db : Conditions) :
    filterQuery f db = db ++ setPredicateSpec f := by
  rw [filterQuery_eq_foldl, foldl_addMembership]
  rfl

theorem sqlMembership_column (c : String) (hc : c ∈ columnNames) :
    sqlMembership (c ++ " in (?)") = some c := by
  simp only [columnNames, List.mem_cons, List.mem_singleton, List.not_mem_nil, or_false] at hc
  rcases hc with h | h | h | h | h | h | h | h | h <;> subst h <;> decide

theorem sqlParseIn_memberships (l : List (String × List String))
    (hl : ∀ cv ∈ l, cv.1 ∈ columnNames) :
    sqlParseIn (l.map fun cv => (cv.1 ++ " in (?)", cv.2)) = some l := by
  induction l with
  | nil => rfl
  | cons cv l ih =>
    simp only [List.map_cons, sqlParseIn, sqlMembership_column cv.1 (hl cv (List.mem_cons_self _ _)),
      ih (fun x hx => hl x (List.mem_cons_of_mem _ hx))]

theorem sqlParseIn_filterQuery (f : Filter) :
    sqlParseIn (filterQuery f []) =
      some ((columnNames.zip f.lists).filter (fun cv => cv.2.length > 0)) := by
  rw [filterQuery_eq_spec, List.nil_append]
  apply sqlParseIn_memberships
  intro cv h
  exact (List.of_mem_zip (List.mem_filter.mp h).1).1

/-- A row is selected by a filter exactly when, in each of the nine columns, the
value list is empty or holds the row's value. -/
theorem Filter.selects_iff (f : Filter) (row : CasbinRule) :
    f.selects row = true ↔
      (f.Ptype = [] ∨ row.Ptype ∈ f.Ptype) ∧ (f.V0 = [] ∨ row.V0 ∈ f.V0) ∧
      (f.V1 = [] ∨ row.V1 ∈ f.V1) ∧ (f.V2 = [] ∨ row.V2 ∈ f.V2) ∧
      (f.V3 = [] ∨ row.V3 ∈ f.V3) ∧ (f.V4 = [] ∨ row.V4 ∈ f.V4) ∧
      (f.V5 = [] ∨ row.V5 ∈ f.V5) ∧ (f.V6 = [] ∨ row.V6 ∈ f.V6) ∧
      (f.V7 = [] ∨ row.V7 ∈ f.V7) := by
  simp only [Filter.selects, sqlParseIn_filterQuery, sqlHoldsIn, all_filter_eq]
  simp [columnNames, Filter.lists, CasbinRule.column, List.length_pos]

theorem dbFindOrdered_filterQuery (t : Table) (f : Filter) :
    dbFindOrdered t (filterQuery f []) =
      .ok ((t.filter f.selects).insertionSort (fun a b => a.ID ≤ b.ID)) := by
  have h : ∀ row, f.selects row =
      sqlHoldsIn ((columnNames.zip f.lists).filter (fun cv => cv.2.length > 0)) row := by
    intro row
    simp only [Filter.selects, sqlParseIn_filterQuery]
  simp only [dbFindOrdered, sqlParseIn_filterQuery]
  congr 3
  funext row
  rw [h]

/-- C14. The scope of `filterQuery` adds, to whatever conditions the query carries,
one membership condition `column in (?)` for each of the nine columns
`ptype, v0, ..., v7` whose value list is non-empty, in column order and with that
column's list, and nothing for an empty list.  A row is selected exactly when in
every column the list is empty or holds the row's value; the filtered load reads
the selected rows in id order, and the filter with nine empty lists adds no
condition and selects every row. -/
theorem filterQuery_memberships (f : Filter) (db : Conditions) (row : CasbinRule) (t : Table) :
    filterQuery f db = db ++ setPredicateSpec f ∧
    (f.selects row = true ↔
      (f.Ptype = [] ∨ row.Ptype ∈ f.Ptype) ∧ (f.V0 = [] ∨ row.V0 ∈ f.V0) ∧
      (f.V1 = [] ∨ row.V1 ∈ f.V1) ∧ (f.V2 = [] ∨ row.V2 ∈ f.V2) ∧
      (f.V3 = [] ∨ row.V3 ∈ f.V3) ∧ (f.V4 = [] ∨ row.V4 ∈ f.V4) ∧
      (f.V5 = [] ∨ row.V5 ∈ f.V5) ∧ (f.V6 = [] ∨ row.V6 ∈ f.V6) ∧
      (f.V7 = [] ∨ row.V7 ∈ f.V7)) ∧
    dbFindOrdered t (filterQuery f []) =
      .ok ((t.filter f.selects).insertionSort (fun a b => a.ID ≤ b.ID)) ∧
    filterQuery ⟨[], [], [], [], [], [], [], [], []⟩ db = db ∧
    Filter.selects ⟨[], [], [], [], [], [], [], [], []⟩ row = true ∧
    filterQuery ⟨["p", "g"], [], ["data1"], [], [], [], [], [], []⟩ [] =
      [("ptype in (?)", ["p", "g"]), ("v1 in (?)", ["data1"])] := by
  refine ⟨filterQuery_eq_spec f db, Filter.selects_iff f row, dbFindOrdered_filterQuery t f,
    rfl, ?_, rfl⟩
  rw [Filter.selects_iff]
  simp

/-! ## Atomicity of the filtered update -/

/-- The loop never touches the snapshot taken at `Begin`. -/
theorem UpdateFilteredPolicies.loopWith_snapshot (faults : Faults) (line : CasbinRule)
    (newP : List CasbinRule) (n : Nat) (tx : Tx) (oldP : List CasbinRule) :
    (UpdateFilteredPolicies.loopWith faults line newP n tx oldP).1.snapshot = tx.snapshot := by
  induction newP generalizing n tx oldP with
  | nil => rfl
  | cons newLine rest ih =>
    simp only [UpdateFilteredPolicies.loopWith]
    split
    · rfl
    · split
      · rfl
      · split
        · rfl
        · rw [ih]

/-- When the client leaves every statement to the table, the loop with faults is
the loop on the table. -/
theorem UpdateFilteredPolicies.loopWith_none (line : CasbinRule) (newP : List CasbinRule)
    (n : Nat) (tx : Tx) (oldP : List CasbinRule) :
    (UpdateFilteredPolicies.loopWith (fun _ => none) line newP n tx oldP).2 =
        (UpdateFilteredPolicies.loop line newP tx.view oldP).map (fun r => r.2) ∧
    ∀ v o, UpdateFilteredPolicies.loop line newP tx.view oldP = .ok (v, o) →
      (UpdateFilteredPolicies.loopWith (fun _ => none) line newP n tx oldP).1.view = v := by
  induction newP generalizing n tx oldP with
  | nil =>
    refine ⟨rfl, ?_⟩
    intro v o h
    simp only [UpdateFilteredPolicies.loop, Except.ok.injEq, Prod.mk.injEq] at h
    simp only [UpdateFilteredPolicies.loopWith, h.1]
  | cons newLine rest ih =>
    simp only [UpdateFilteredPolicies.loopWith, withFault, UpdateFilteredPolicies.loop_cons,
      dbFind_queryString, dbDelete_queryString]
    cases h1 : dbCreate (tx.view.filter (fun row => !line.matchesLine row)) newLine with
    | error e =>
      refine ⟨rfl, ?_⟩
      intro v o h
      cases h
    | ok view' =>
      exact ih (n + 3) { tx with view := view' } (tx.view.filter line.matchesLine)

/-- With a client that fails no statement, the filtered update with faults is the
filtered update on the table. -/
theorem UpdateFilteredPoliciesWith_none (db : Table) (sec ptype : String)
    (newPolicies : List (List String)) (fieldIndex : Int) (fieldValues : List String) :
    UpdateFilteredPoliciesWith (fun _ => none) db sec ptype newPolicies fieldIndex fieldValues =
      UpdateFilteredPolicies db sec ptype newPolicies fieldIndex fieldValues := by
  simp only [UpdateFilteredPoliciesWith, UpdateFilteredPolicies]
  cases hf : UpdateFilteredPolicies.fill ptype fieldIndex fieldValues with
  | error e => rfl
  | ok line =>
    simp only
    have h := UpdateFilteredPolicies.loopWith_none line (newPolicies.map (savePolicyLine ptype)) 0
      (Begin db) []
    have hs := UpdateFilteredPolicies.loopWith_snapshot (fun _ => none) line
      (newPolicies.map (savePolicyLine ptype)) 0 (Begin db) []
    have hv : (Begin db).view = db := rfl
    rw [hv] at h
    cases hl : UpdateFilteredPolicies.loop line (newPolicies.map (savePolicyLine ptype)) db [] with
    | error e =>
      rw [hl] at h
      cases hw : UpdateFilteredPolicies.loopWith (fun _ => none) line
          (newPolicies.map (savePolicyLine ptype)) 0 (Begin db) [] with
      | mk tx res =>
        rw [hw] at h hs
        have h2 : res = .error e := h.1
        subst h2
        simp only [Tx.Rollback]
        rw [hs]
        rfl
    | ok r =>
      obtain ⟨v, o⟩ := r
      rw [hl] at h
      cases hw : UpdateFilteredPolicies.loopWith (fun _ => none) line
          (newPolicies.map (savePolicyLine ptype)) 0 (Begin db) [] with
      | mk tx res =>
        rw [hw] at h
        have h2 : res = .ok o := h.1
        have h3 : tx.view = v := h.2 v o rfl
        subst h2
        simp only [Tx.Commit, h3]

/-- Whatever the client answers, a filtered update that returns an error leaves the
table as it was before the call. -/
theorem UpdateFilteredPoliciesWith_error_unchanged (faults : Faults) (db : Table)
    (sec ptype : String) (newPolicies : List (List String)) (fieldIndex : Int)
    (fieldValues : List String) (err : Failure)
    (h : (UpdateFilteredPoliciesWith faults db sec ptype newPolicies fieldIndex fieldValues).2 =
      .error err) :
    (UpdateFilteredPoliciesWith faults db sec ptype newPolicies fieldIndex fieldValues).1 = db := by
  simp only [UpdateFilteredPoliciesWith] at h ⊢
  cases hf : UpdateFilteredPolicies.fill ptype fieldIndex fieldValues with
  | error e => rfl
  | ok line =>
    rw [hf] at h
    simp only at h ⊢
    have hs := UpdateFilteredPolicies.loopWith_snapshot faults line
      (newPolicies.map (savePolicyLine ptype)) 0 (Begin db) []
    cases hw : UpdateFilteredPolicies.loopWith faults line
        (newPolicies.map (savePolicyLine ptype)) 0 (Begin db) [] with
    | mk tx res =>
      rw [hw] at h hs
      cases res with
      | error e => exact hs
      | ok o => cases h

/-- Once the loop has ended with an error, `UpdateFilteredPolicies` returns that
error without a removed set, and the rollback gives back the table of before
the call, whatever the transaction's view had become. -/
theorem UpdateFilteredPoliciesWith_of_loop_error (faults : Faults) (db : Table)
    (sec ptype : String) (newPolicies : List (List String)) (fieldIndex : Int)
    (fieldValues : List String) (line : CasbinRule) (tx : Tx) (err : Failure)
    (hline : UpdateFilteredPolicies.fill ptype fieldIndex fieldValues = .ok line)
    (hfail : UpdateFilteredPolicies.loopWith faults line (newPolicies.map (savePolicyLine ptype))
      0 (Begin db) [] = (tx, .error err)) :
    UpdateFilteredPoliciesWith faults db sec ptype newPolicies fieldIndex fieldValues =
      (db, .error err) ∧ tx.Rollback = db := by
  have hs := UpdateFilteredPolicies.loopWith_snapshot faults line
    (newPolicies.map (savePolicyLine ptype)) 0 (Begin db) []
  rw [hfail] at hs
  have hr : tx.Rollback = db := hs
  refine ⟨?_, hr⟩
  simp only [UpdateFilteredPoliciesWith, hline, hfail, hr]

/-! ## The inserts of a full save -/

theorem fromTuple_eq_ruleRecord (rule : List String) (h : rule ≠ []) :
    fromTuple rule = .ok (ruleRecord rule) := by
  cases rule with
  | nil => exact absurd rfl h
  | cons p rest => rfl

/-- While fewer than 1001 records are collected the visitor only collects: after
rules that bring `lines` to at most 1000 records no insert has been issued. -/
theorem RangeRules_collect (create : CreateAnswers) (pre rest : List (List String))
    (v : SavePolicy.Vars) (hne : ∀ rule ∈ pre, rule ≠ [])
    (hlen : v.lines.length + pre.length ≤ 1000) :
    RangeRules (SavePolicy.visitor create) (pre ++ rest) v =
      RangeRules (SavePolicy.visitor create) rest
        { v with lines := v.lines ++ pre.map ruleRecord } := by
  induction pre generalizing v with
  | nil => simp
  | cons rule pre ih =>
    have h1 : fromTuple rule = .ok (ruleRecord rule) :=
      fromTuple_eq_ruleRecord rule (hne rule (List.mem_cons_self _ _))
    have h2 : ¬ (v.lines ++ [ruleRecord rule]).length > flushEvery := by
      simp only [List.length_append, List.length_cons, List.length_nil, flushEvery] at hlen ⊢
      omega
    have h3 : SavePolicy.visitor create v rule =
        .ok ({ v with lines := v.lines ++ [ruleRecord rule] }, true) := by
      simp only [SavePolicy.visitor, h1, h2, if_false]
    rw [List.cons_append, RangeRules, h3]
    simp only
    rw [ih _ (fun r hr => hne r (List.mem_cons_of_mem _ hr))
      (by simp only [List.length_append, List.length_cons, List.length_nil] at hlen ⊢; omega)]
    simp only [List.map_cons, List.append_assoc, List.singleton_append]

/-- What `SavePolicy` does with 1001 rules: the visitor hands all 1001 records to
the first insert; when that insert succeeds an empty batch goes to the final
insert, and when it fails the visitor returns false, nothing is assigned to
`createErr`, and the same 1001 records go to the final insert, whose outcome
alone is returned. -/
theorem SavePolicy_of_1001 (create : CreateAnswers) (rules : List (List String))
    (hlen : rules.length = 1001) (hne : ∀ rule ∈ rules, rule ≠ []) :
    SavePolicy none none create rules =
      match create 0 (rules.map ruleRecord) with
      | none => ([rules.map ruleRecord, []], create 1 [])
      | some _ => ([rules.map ruleRecord, rules.map ruleRecord], create 1 (rules.map ruleRecord)) := by
  obtain ⟨pre, last, hr⟩ : ∃ pre last, rules = pre ++ [last] := by
    rcases List.eq_nil_or_concat rules with h | ⟨pre, last, h⟩
    · rw [h] at hlen; simp at hlen
    · exact ⟨pre, last, by rw [h, List.concat_eq_append]⟩
  subst hr
  have hpre : pre.length = 1000 := by simpa using hlen
  have h1 : fromTuple last = .ok (ruleRecord last) :=
    fromTuple_eq_ruleRecord last (hne last (by simp))
  have hc := RangeRules_collect create pre [last] { createErr := none, lines := [], issued := [] }
    (fun r hr => hne r (List.mem_append_left _ hr)) (by simp [hpre])
  have h2 : (pre.map ruleRecord ++ [ruleRecord last]).length > flushEvery := by
    simp [hpre, flushEvery]
  simp only [SavePolicy, hc, List.nil_append, RangeRules, SavePolicy.visitor, h1, h2, if_true,
    List.length_nil, List.map_append, List.map_cons, List.map_nil]
  cases create 0 (pre.map ruleRecord ++ [ruleRecord last]) with
  | none =>
    simp only [List.length_singleton, List.nil_append]
    cases create 1 [] <;> rfl
  | some e =>
    simp only [List.length_singleton, List.nil_append]
    cases create 1 (pre.map ruleRecord ++ [ruleRecord last]) <;> rfl

theorem numberedRules_length (n : Nat) : (numberedRules n).length = n := by
  simp [numberedRules]

theorem numberedRules_ne_nil (n : Nat) : ∀ rule ∈ numberedRules n, rule ≠ [] := by
  intro rule h
  simp only [numberedRules, List.mem_map] at h
  obtain ⟨i, _, hi⟩ := h
  rw [← hi]
  simp

/-- C15. The condition of the flush is `len(lines) > flushEvery`, so a batch is
inserted when it holds 1001 records: for a model of 1001 rules, with every
insert succeeding, the first insert carries all 1001 records (and the final
insert an empty batch). -/
theorem savePolicy_batch_of_1001 :
    SavePolicy none none createOk (numberedRules 1001) =
      ([(numberedRules 1001).map ruleRecord, []], none) ∧
    ((SavePolicy none none createOk (numberedRules 1001)).1.map List.length) = [1001, 0] ∧
    flushEvery = 1000 := by
  have h := SavePolicy_of_1001 createOk (numberedRules 1001) (numberedRules_length 1001)
    (numberedRules_ne_nil 1001)
  have h' : SavePolicy none none createOk (numberedRules 1001) =
      ([(numberedRules 1001).map ruleRecord, []], none) := h
  refine ⟨h', ?_, rfl⟩
  rw [h']
  simp [numberedRules_length]

/-- C16. A failed insert inside the visitor is swallowed: for a model of 1001 rules
and a client whose first insert fails and whose later inserts succeed,
`SavePolicy` issues a second insert with the same 1001 records after the failed
one and returns no error. -/
theorem savePolicy_swallows_insert_error :
    createFailsFirst 0 ((numberedRules 1001).map ruleRecord) = some (.error "connection lost") ∧
    SavePolicy none none createFailsFirst (numberedRules 1001) =
      ([(numberedRules 1001).map ruleRecord, (numberedRules 1001).map ruleRecord], none) := by
  have h := SavePolicy_of_1001 createFailsFirst (numberedRules 1001) (numberedRules_length 1001)
    (numberedRules_ne_nil 1001)
  exact ⟨rfl, h⟩

/-- The visitor never assigns the `createErr` of `SavePolicy`: whatever the client
answers, the variable is after `RangeRules` what it was before. -/
theorem RangeRules_createErr (create : CreateAnswers) (rules : List (List String))
    (v : SavePolicy.Vars) :
    (RangeRules (SavePolicy.visitor create) rules v).1.createErr = v.createErr := by
  induction rules generalizing v with
  | nil => rfl
  | cons rule rest ih =>
    rw [RangeRules]
    cases hf : fromTuple rule with
    | error e => simp only [SavePolicy.visitor, hf]
    | ok line =>
      by_cases hl : (v.lines ++ [line]).length > flushEvery
      · cases hc : create v.issued.length (v.lines ++ [line]) with
        | none =>
          simp only [SavePolicy.visitor, hf, hl, if_true, hc]
          rw [ih]
        | some e => simp only [SavePolicy.visitor, hf, hl, if_true, hc]
      · simp only [SavePolicy.visitor, hf, hl, if_false]
        rw [ih]

/-- With every insert succeeding, the visitor keeps the records in order: the
batches issued followed by the records still collected are the records of the
rules visited, every new batch holds 1001 records and at most 1000 records are
left collected. -/
theorem RangeRules_createOk (rules : List (List String)) (v : SavePolicy.Vars)
    (hne : ∀ rule ∈ rules, rule ≠ []) (hlen : v.lines.length ≤ 1000) :
    (RangeRules (SavePolicy.visitor createOk) rules v).2 = none ∧
    (RangeRules (SavePolicy.visitor createOk) rules v).1.issued.flatten ++
        (RangeRules (SavePolicy.visitor createOk) rules v).1.lines =
      v.issued.flatten ++ v.lines ++ rules.map ruleRecord ∧
    (RangeRules (SavePolicy.visitor createOk) rules v).1.lines.length ≤ 1000 ∧
    (∀ b ∈ (RangeRules (SavePolicy.visitor createOk) rules v).1.issued,
      b ∈ v.issued ∨ b.length = 1001) := by
  induction rules generalizing v with
  | nil =>
    simp only [RangeRules, List.map_nil, List.append_nil, hlen, true_and]
    exact fun b hb => Or.inl hb
  | cons rule rest ih =>
    have h1 : fromTuple rule = .ok (ruleRecord rule) :=
      fromTuple_eq_ruleRecord rule (hne rule (List.mem_cons_self _ _))
    have hne' : ∀ r ∈ rest, r ≠ [] := fun r hr => hne r (List.mem_cons_of_mem _ hr)
    rw [RangeRules]
    by_cases hl : (v.lines ++ [ruleRecord rule]).length > flushEvery
    · have hv : SavePolicy.visitor createOk v rule =
          .ok ({ v with lines := [], issued := v.issued ++ [v.lines ++ [ruleRecord rule]] }, true) := by
        simp only [SavePolicy.visitor, h1, hl, if_true, createOk]
      rw [hv]
      simp only
      obtain ⟨i1, i2, i3, i4⟩ := ih
        { v with lines := [], issued := v.issued ++ [v.lines ++ [ruleRecord rule]] } hne'
        (by simp)
      refine ⟨i1, ?_, i3, ?_⟩
      · rw [i2]
        simp
      · intro b hb
        rcases i4 b hb with h | h
        · simp only [List.mem_append, List.mem_singleton] at h
          rcases h with h | h
          · exact Or.inl h
          · right
            rw [h]
            simp only [List.length_append, List.length_cons, List.length_nil, flushEvery] at hl ⊢
            omega
        · exact Or.inr h
    · have hv : SavePolicy.visitor createOk v rule =
          .ok ({ v with lines := v.lines ++ [ruleRecord rule] }, true) := by
        simp only [SavePolicy.visitor, h1, hl, if_false]
      rw [hv]
      simp only
      obtain ⟨i1, i2, i3, i4⟩ := ih { v with lines := v.lines ++ [ruleRecord rule] } hne'
        (by simp only [List.length_append, List.length_cons, List.length_nil, flushEvery] at hl ⊢
            omega)
      refine ⟨i1, ?_, i3, i4⟩
      rw [i2]
      simp

/-- With every insert succeeding and every rule holding a first element, the
batches of `SavePolicy`, in issue order, put together are the records of the
rules in visiting order, no error is returned, and no batch holds more than
1001 records. -/
theorem SavePolicy_createOk (rules : List (List String)) (hne : ∀ rule ∈ rules, rule ≠ []) :
    (SavePolicy none none createOk rules).2 = none ∧
    (SavePolicy none none createOk rules).1.flatten = rules.map ruleRecord ∧
    (∀ b ∈ (SavePolicy none none createOk rules).1, b.length ≤ 1001) := by
  obtain ⟨i1, i2, i3, i4⟩ := RangeRules_createOk rules
    { createErr := none, lines := [], issued := [] } hne (by simp)
  have hc := RangeRules_createErr createOk rules { createErr := none, lines := [], issued := [] }
  cases hr : RangeRules (SavePolicy.visitor createOk) rules
      { createErr := none, lines := [], issued := [] } with
  | mk v p =>
    rw [hr] at i1 i2 i3 i4 hc
    simp only at i1 i2 i3 i4 hc
    subst i1
    simp only [SavePolicy, hr, hc, createOk]
    refine ⟨trivial, ?_, ?_⟩
    · simpa using i2
    · intro b hb
      simp only [List.mem_append, List.mem_singleton] at hb
      rcases hb with hb | hb
      · rcases i4 b hb with h | h
        · simp at h
        · omega
      · rw [hb]; omega

/-! ## The filtered flag -/

theorem Adapter.LoadPolicy_isFiltered (a : Adapter) (faults : Faults)
    (model : List (List String)) :
    (a.LoadPolicy faults model).1.isFiltered = a.isFiltered := by
  simp only [Adapter.LoadPolicy]
  split <;> rfl

/-- A `LoadFilteredPolicy` leaves the flag as it was or sets it, and sets it
whenever it returns no error. -/
theorem Adapter.LoadFilteredPolicy_isFiltered (a : Adapter) (faults : Faults)
    (model : List (List String)) (filter : FilterArg) :
    ((a.LoadFilteredPolicy faults model filter).1.isFiltered = a.isFiltered ∨
      (a.LoadFilteredPolicy faults model filter).1.isFiltered = true) ∧
    ((a.LoadFilteredPolicy faults model filter).2.2 = none →
      (a.LoadFilteredPolicy faults model filter).1.isFiltered = true) := by
  cases filter with
  | other d =>
    refine ⟨Or.inl rfl, ?_⟩
    intro h
    cases h
  | filter f =>
    simp only [Adapter.LoadFilteredPolicy]
    cases withFault faults 0 (dbFindOrdered a.db (filterQuery f [])) with
    | error e =>
      refine ⟨Or.inl rfl, ?_⟩
      intro h
      cases h
    | ok lines =>
      simp only
      cases hl : loadLines lines model with
      | mk model' err =>
        cases err with
        | none => exact ⟨Or.inr rfl, fun _ => rfl⟩
        | some e =>
          refine ⟨Or.inl rfl, ?_⟩
          intro h
          cases h

/-- Every call other than `LoadFilteredPolicy` leaves the flag as it was. -/
theorem Adapter.call_isFiltered (client : Client) (faults : Faults) (a : Adapter)
    (model : List (List String)) (c : Call) (hc : c.isLoadFiltered = false) :
    (Adapter.call client faults a model c).1.isFiltered = a.isFiltered := by
  cases c with
  | LoadPolicy => exact Adapter.LoadPolicy_isFiltered a faults model
  | LoadFilteredPolicy filter => cases hc
  | UpdateFilteredPolicies sec ptype newPolicies fieldIndex fieldValues =>
    simp only [Adapter.call]
    split <;> rfl
  | _ => rfl

/-- A flag that is set stays set over any sequence of calls. -/
theorem Adapter.run_isFiltered (client : Client) (calls : List (Call × Faults)) (a : Adapter)
    (model : List (List String)) (h : a.isFiltered = true) :
    (Adapter.run client a model calls).1.isFiltered = true := by
  induction calls generalizing a model with
  | nil => exact h
  | cons cf rest ih =>
    obtain ⟨c, faults⟩ := cf
    simp only [Adapter.run]
    apply ih
    by_cases hc : c.isLoadFiltered = false
    · rw [Adapter.call_isFiltered client faults a model c hc, h]
    · cases c with
      | LoadFilteredPolicy filter =>
        rcases (Adapter.LoadFilteredPolicy_isFiltered a faults model filter).1 with h1 | h1
        · exact h1.trans h
        · exact h1
      | _ => exact absurd rfl hc

/-- C18. A freshly constructed adapter is not filtered; a `LoadFilteredPolicy` that
returns no error sets the flag; a `LoadFilteredPolicy` whose argument is not a
`Filter` returns the error `invalid filter type` whatever the database would
answer, and leaves the adapter, flag included, and the sink as they were; every
call other than `LoadFilteredPolicy` (`LoadPolicy` and all write operations)
leaves the flag as it was; and once the flag is set it stays set over any
sequence of calls. -/
theorem filtered_flag (client : Client) (faults : Faults) (a : Adapter)
    (model : List (List String)) (db : Table) :
    (NewAdapterWithTable db none).map Adapter.IsFiltered = .ok false ∧
    (∀ filter, (a.LoadFilteredPolicy faults model filter).2.2 = none →
      (a.LoadFilteredPolicy faults model filter).1.IsFiltered = true) ∧
    (∀ d, a.LoadFilteredPolicy faults model (.other d) =
      (a, model, some (.error "invalid filter type"))) ∧
    (∀ c : Call, c.isLoadFiltered = false →
      (Adapter.call client faults a model c).1.IsFiltered = a.IsFiltered) ∧
    (∀ calls, a.IsFiltered = true → (Adapter.run client a model calls).1.IsFiltered = true) :=
  ⟨rfl, fun filter => (Adapter.LoadFilteredPolicy_isFiltered a faults model filter).2,
    fun _ => rfl, fun c hc => Adapter.call_isFiltered client faults a model c hc,
    fun calls h => Adapter.run_isFiltered client calls a model h⟩

/-- C18 on an adapter over the two-rule store: the filtered load with `V0` in `["a"]`
hands both rules to the sink and sets the flag; with an argument that is not a
`Filter` the error is returned and nothing changes; afterwards `LoadPolicy` and
an `AddRule` leave the flag set. -/
theorem filtered_flag_witness :
    Adapter.LoadFilteredPolicy ⟨twoRules, false⟩ (fun _ => none) []
        (.filter ⟨[], ["a"], [], [], [], [], [], [], []⟩) =
      (⟨twoRules, true⟩, [["p", "a", "b"], ["p", "a", "c"]], none) ∧
    (Adapter.LoadFilteredPolicy ⟨twoRules, false⟩ (fun _ => none) []
        (.filter ⟨[], ["a"], [], [], [], [], [], [], []⟩)).1.IsFiltered = true ∧
    Adapter.LoadFilteredPolicy ⟨twoRules, false⟩ (fun _ => none) [] (.other "nil") =
      (⟨twoRules, false⟩, [], some (.error "invalid filter type")) ∧
    (Adapter.call idleClient (fun _ => none) ⟨twoRules, true⟩ [] (.AddRule ["p", "x"])).1.IsFiltered
      = true ∧
    (Adapter.run idleClient ⟨twoRules, true⟩ []
      [(.LoadPolicy, fun _ => none), (.AddRule ["p", "x"], fun _ => none),
        (.LoadFilteredPolicy (.other "nil"), fun _ => none)]).1.IsFiltered = true := by
  have h := filtered_flag idleClient (fun _ => none) ⟨twoRules, false⟩ [] []
  have h' := filtered_flag idleClient (fun _ => none) ⟨twoRules, true⟩ [] []
  exact ⟨rfl, h.2.1 _ rfl, h.2.2.1 "nil", h'.2.2.2.1 _ rfl, h'.2.2.2.2 _ rfl⟩

/-! ## Which statement fails -/

/-- One iteration of the loop with faults, statement by statement: the select and
the delete can only fail by the client, the insert by the client or by the
unique index; the transaction's view changes at the delete and at the insert. -/
theorem UpdateFilteredPolicies.loopWith_cons (faults : Faults) (line newLine : CasbinRule)
    (rest : List CasbinRule) (n : Nat) (tx : Tx) (oldP : List CasbinRule) :
    UpdateFilteredPolicies.loopWith faults line (newLine :: rest) n tx oldP =
      match faults n with
      | some err => (tx, .error err)
      | none =>
        match faults (n + 1) with
        | some err => (tx, .error err)
        | none =>
          match withFault faults (n + 2)
              (dbCreate (tx.view.filter (fun row => !line.matchesLine row)) newLine) with
          | .error err =>
            ({ tx with view := tx.view.filter (fun row => !line.matchesLine row) }, .error err)
          | .ok view' =>
            UpdateFilteredPolicies.loopWith faults line rest (n + 3) { tx with view := view' }
              (tx.view.filter line.matchesLine) := by
  rw [UpdateFilteredPolicies.loopWith]
  simp only [withFault, dbFind_queryString, dbDelete_queryString]
  cases faults n <;> cases faults (n + 1) <;> rfl

/-- The loop over the new records up to an iteration, followed by the loop from
that iteration on. -/
theorem UpdateFilteredPolicies.loopWith_append (faults : Faults) (line : CasbinRule)
    (pre rest : List CasbinRule) (n : Nat) (tx : Tx) (oldP : List CasbinRule) :
    UpdateFilteredPolicies.loopWith faults line (pre ++ rest) n tx oldP =
      match UpdateFilteredPolicies.loopWith faults line pre n tx oldP with
      | (tx', .error err) => (tx', .error err)
      | (tx', .ok oldP') =>
        UpdateFilteredPolicies.loopWith faults line rest (n + 3 * pre.length) tx' oldP' := by
  induction pre generalizing n tx oldP with
  | nil => rfl
  | cons newLine pre ih =>
    rw [List.cons_append, UpdateFilteredPolicies.loopWith_cons,
      UpdateFilteredPolicies.loopWith_cons]
    cases faults n with
    | some e => rfl
    | none =>
      cases faults (n + 1) with
      | some e => rfl
      | none =>
        cases withFault faults (n + 2)
            (dbCreate (tx.view.filter (fun row => !line.matchesLine row)) newLine) with
        | error e => rfl
        | ok view' =>
          simp only
          rw [ih]
          have e : n + 3 + 3 * pre.length = n + 3 * (newLine :: pre).length := by
            simp only [List.length_cons]; omega
          rw [e]

/-- A failure in iteration `k`, after `k` iterations that went through: whether
the client fails the select, the delete or the insert of that iteration, the
call returns that error and the table is the table before the call. -/
theorem UpdateFilteredPoliciesWith_fails_in_iteration (faults : Faults) (db : Table)
    (sec ptype : String) (pre : List (List String)) (cur : List String)
    (rest : List (List String)) (fieldIndex : Int) (fieldValues : List String)
    (line : CasbinRule) (tx : Tx) (oldP : List CasbinRule) (err : Failure)
    (hline : UpdateFilteredPolicies.fill ptype fieldIndex fieldValues = .ok line)
    (hpre : UpdateFilteredPolicies.loopWith faults line (pre.map (savePolicyLine ptype)) 0
      (Begin db) [] = (tx, .ok oldP))
    (hfail : faults (3 * pre.length) = some err ∨
      (faults (3 * pre.length) = none ∧ faults (3 * pre.length + 1) = some err) ∨
      (faults (3 * pre.length) = none ∧ faults (3 * pre.length + 1) = none ∧
        faults (3 * pre.length + 2) = some err)) :
    UpdateFilteredPoliciesWith faults db sec ptype (pre ++ cur :: rest) fieldIndex fieldValues =
      (db, .error err) := by
  have hs := UpdateFilteredPolicies.loopWith_snapshot faults line
    (pre.map (savePolicyLine ptype)) 0 (Begin db) []
  rw [hpre] at hs
  have hsnap : tx.snapshot = db := hs
  have hl : ∃ tx', tx'.snapshot = db ∧ UpdateFilteredPolicies.loopWith faults line
      ((pre ++ cur :: rest).map (savePolicyLine ptype)) 0 (Begin db) [] = (tx', .error err) := by
    rw [List.map_append, UpdateFilteredPolicies.loopWith_append, hpre]
    simp only [List.map_cons, List.length_map, Nat.zero_add]
    rw [UpdateFilteredPolicies.loopWith_cons]
    rcases hfail with h | ⟨h0, h⟩ | ⟨h0, h1, h⟩
    · rw [h]; exact ⟨tx, hsnap, rfl⟩
    · rw [h0, h]; exact ⟨tx, hsnap, rfl⟩
    · rw [h0, h1]
      simp only [withFault, h]
      exact ⟨{ tx with view := tx.view.filter (fun row => !line.matchesLine row) }, hsnap, rfl⟩
  obtain ⟨tx', htx', hl'⟩ := hl
  simp only [UpdateFilteredPoliciesWith, hline, hl', Tx.Rollback, htx']

/-! ## Atomicity of the filtered update, statement by statement -/

/-- C11. Whatever the client answers to the statements: when the iterations before
iteration `k` went through and in iteration `k` the select fails, or the select
goes through and the delete fails, or both go through and the insert fails (by
the client or by the unique index), `UpdateFilteredPolicies` returns no removed
set and the error of that statement, and the table is exactly the table before
the call, the replacements of the earlier iterations undone. -/
theorem updateFiltered_rolls_back (faults : Faults) (db : Table) (sec ptype : String)
    (pre : List (List String)) (cur : List String) (rest : List (List String))
    (fieldIndex : Int) (fieldValues : List String) (line : CasbinRule) (tx : Tx)
    (oldP : List CasbinRule) (err : Failure)
    (hline : UpdateFilteredPolicies.fill ptype fieldIndex fieldValues = .ok line)
    (hpre : UpdateFilteredPolicies.loopWith faults line (pre.map (savePolicyLine ptype)) 0
      (Begin db) [] = (tx, .ok oldP))
    (hfail :
      withFault faults (3 * pre.length)
          (dbFind tx.view line.queryString.1 line.queryString.2) = .error err ∨
      (∃ found,
        withFault faults (3 * pre.length)
            (dbFind tx.view line.queryString.1 line.queryString.2) = .ok found ∧
        withFault faults (3 * pre.length + 1)
            (dbDelete tx.view line.queryString.1 line.queryString.2) = .error err) ∨
      (∃ found view,
        withFault faults (3 * pre.length)
            (dbFind tx.view line.queryString.1 line.queryString.2) = .ok found ∧
        withFault faults (3 * pre.length + 1)
            (dbDelete tx.view line.queryString.1 line.queryString.2) = .ok view ∧
        withFault faults (3 * pre.length + 2) (dbCreate view (savePolicyLine ptype cur)) =
          .error err)) :
    UpdateFilteredPoliciesWith faults db sec ptype (pre ++ cur :: rest) fieldIndex fieldValues =
      (db, .error err) := by
  have hs := UpdateFilteredPolicies.loopWith_snapshot faults line
    (pre.map (savePolicyLine ptype)) 0 (Begin db) []
  rw [hpre] at hs
  have hsnap : tx.snapshot = db := hs
  have hl : ∃ tx', tx'.snapshot = db ∧ UpdateFilteredPolicies.loopWith faults line
      ((pre ++ cur :: rest).map (savePolicyLine ptype)) 0 (Begin db) [] = (tx', .error err) := by
    rw [List.map_append, UpdateFilteredPolicies.loopWith_append, hpre]
    simp only [List.map_cons, List.length_map, Nat.zero_add]
    rw [UpdateFilteredPolicies.loopWith]
    rcases hfail with h | ⟨found, h0, h⟩ | ⟨found, view, h0, h1, h⟩
    · simp only [h]
      exact ⟨tx, hsnap, rfl⟩
    · simp only [h0, h]
      exact ⟨tx, hsnap, rfl⟩
    · simp only [h0, h1, h]
      exact ⟨{ tx with view := view }, hsnap, rfl⟩
  obtain ⟨tx', htx', hl'⟩ := hl
  simp only [UpdateFilteredPoliciesWith, hline, hl', Tx.Rollback, htx']

/-- C11 on the two-rule store with two new rules.  The insert of the second
iteration hits the unique index after the first iteration has replaced both
rows in the transaction's view; and a client loses the connection at the
select, at the delete, at the insert of the second iteration.  Each time the
error of that statement is returned and both original rows are in the table. -/
theorem updateFiltered_rolls_back_witness :
    UpdateFilteredPolicies.loopWith (fun _ => none) ⟨0, "p", "a", "", "", "", "", "", "", ""⟩
        ([["z", "w"]].map (savePolicyLine "p")) 0 (Begin twoRules) [] =
      (⟨twoRules, [⟨1, "p", "z", "w", "", "", "", "", "", ""⟩]⟩, .ok twoRules) ∧
    dbCreate [⟨1, "p", "z", "w", "", "", "", "", "", ""⟩] (savePolicyLine "p" ["z", "w"]) =
      .error (.error "UNIQUE constraint failed") ∧
    UpdateFilteredPoliciesWith (fun _ => none) twoRules "p" "p" [["z", "w"], ["z", "w"]] 0 ["a"] =
      (twoRules, .error (.error "UNIQUE constraint failed")) ∧
    UpdateFilteredPoliciesWith (failAt 3) twoRules "p" "p" [["z", "w"], ["y", "w"]] 0 ["a"] =
      (twoRules, .error (.error "connection lost")) ∧
    UpdateFilteredPoliciesWith (failAt 4) twoRules "p" "p" [["z", "w"], ["y", "w"]] 0 ["a"] =
      (twoRules, .error (.error "connection lost")) ∧
    UpdateFilteredPoliciesWith (failAt 5) twoRules "p" "p" [["z", "w"], ["y", "w"]] 0 ["a"] =
      (twoRules, .error (.error "connection lost")) :=
  ⟨rfl, rfl,
    updateFiltered_rolls_back (fun _ => none) twoRules "p" "p" [["z", "w"]] ["z", "w"] [] 0 ["a"]
      ⟨0, "p", "a", "", "", "", "", "", "", ""⟩
      ⟨twoRules, [⟨1, "p", "z", "w", "", "", "", "", "", ""⟩]⟩ twoRules
      (.error "UNIQUE constraint failed") rfl rfl
      (Or.inr (Or.inr ⟨[], [⟨1, "p", "z", "w", "", "", "", "", "", ""⟩], rfl, rfl, rfl⟩)),
    updateFiltered_rolls_back (failAt 3) twoRules "p" "p" [["z", "w"]] ["y", "w"] [] 0 ["a"]
      ⟨0, "p", "a", "", "", "", "", "", "", ""⟩
      ⟨twoRules, [⟨1, "p", "z", "w", "", "", "", "", "", ""⟩]⟩ twoRules
      (.error "connection lost") rfl rfl (Or.inl rfl),
    updateFiltered_rolls_back (failAt 4) twoRules "p" "p" [["z", "w"]] ["y", "w"] [] 0 ["a"]
      ⟨0, "p", "a", "", "", "", "", "", "", ""⟩
      ⟨twoRules, [⟨1, "p", "z", "w", "", "", "", "", "", ""⟩]⟩ twoRules
      (.error "connection lost") rfl rfl (Or.inr (Or.inl ⟨[], rfl, rfl⟩)),
    updateFiltered_rolls_back (failAt 5) twoRules "p" "p" [["z", "w"]] ["y", "w"] [] 0 ["a"]
      ⟨0, "p", "a", "", "", "", "", "", "", ""⟩
      ⟨twoRules, [⟨1, "p", "z", "w", "", "", "", "", "", ""⟩]⟩ twoRules
      (.error "connection lost") rfl rfl
      (Or.inr (Or.inr ⟨[], [⟨1, "p", "z", "w", "", "", "", "", "", ""⟩], rfl, rfl, rfl⟩))⟩

end GormAdapter
